import Mathlib

/-! LM75BD temperature-sensor driver and thermal manager

A shallow embedding of `lm75bd/lm75bd.c` and `services/thermal_mgr/thermal_mgr.c`.

* Bytes and addresses (`uint8_t`) are natural numbers; every store into a
  `uint8_t` object is reduced modulo 256, every conversion to `int16_t`
  wraps modulo 65536 into the range -32768 .. 32767.
* The two-wire bus is an external collaborator.  It is a pair of oracles that
  answer from the list of transactions issued so far; the driver functions
  thread that list through explicitly, so "which bus transactions happened"
  is part of every result.
* `float` temperatures are rationals.  Every value the driver stores is
  `k * 0.125` with `-1024 ≤ k ≤ 1023`, which binary32 represents exactly, so
  no rounding is lost by that choice.
* A nullable pointer is an `Option`: `none` is `NULL`, `some v` is a
  destination currently holding `v`.
-/

namespace LM75BD

/-- Modelled from the spec: the enumeration `error_code_t` of `errors.h`, which is
not part of the sources.  Success, the invalid-argument code and the generic
failure code are the three values the sources name; every other member (the
bus-level failures among them) is `ERR_CODE_OTHER n`. -/
inductive error_code_t where
  | ERR_CODE_SUCCESS
  | ERR_CODE_UNKNOWN
  | ERR_CODE_INVALID_ARG
  | ERR_CODE_OTHER (n : Nat)
  deriving DecidableEq, Repr

open error_code_t

/-- One transaction on the two-wire bus, as seen by the bus collaborator:
a write of `data` to `addr`, or a read of `len` bytes from `addr`. -/
inductive BusOp where
  | send (addr : Nat) (data : List Nat)
  | recv (addr : Nat) (len : Nat)
  deriving DecidableEq, Repr

/-- Modelled from the spec: the bus primitives `i2cSendTo` and `i2cReceiveFrom` of
`i2c_io.h`, which are not part of the sources.  Each answers from the
transactions issued before it (first argument), the device address and the
buffer contents or length.  A receive yields a result code and the bytes the
device put on the bus. -/
structure I2CBus where
  i2cSendTo : List BusOp → Nat → List Nat → error_code_t
  i2cReceiveFrom : List BusOp → Nat → Nat → error_code_t × List Nat

/-- Configuration register address, `LM75BD_REG_CONF`. -/
def LM75BD_REG_CONF : Nat := 0x01

/-- Conversion of an integer to `int16_t`: wrap modulo 2^16 into
-32768 .. 32767. -/
def toInt16 (i : Int) : Int := (i + 32768) % 65536 - 32768

/-- Store into a `uint8_t` object. -/
def toUInt8 (n : Nat) : Nat := n % 256

/-- The fields of `lm75bd_config_t` read by `lm75bdInit`. -/
structure lm75bd_config_t where
  devAddr : Nat
  osFaultQueueSize : Nat
  osPolarity : Nat
  osOperationMode : Nat
  devOperationMode : Nat
  deriving DecidableEq, Repr

/-- Embedding of `readTempLM75BD(devAddr, temp)`.  `temp` is the output destination,
`log` the bus transactions so far.  Returns the result code, the destination
afterwards and the bus transactions afterwards.  `RETURN_IF_ERROR_CODE(e)`
assigns `e` to `errCode` and returns it when it is not `ERR_CODE_SUCCESS`. -/
def readTempLM75BD (bus : I2CBus) (devAddr : Nat) (temp : Option ℚ) (log : List BusOp) :
    error_code_t × Option ℚ × List BusOp :=
  match temp with
  | none => (ERR_CODE_INVALID_ARG, none, log)
  | some old =>
    let tempPointer : Nat := 0x0
    let errCode := bus.i2cSendTo log devAddr [tempPointer]
    let log1 := log ++ [BusOp.send devAddr [tempPointer]]
    if errCode ≠ ERR_CODE_SUCCESS then (errCode, some old, log1)
    else
      let r := bus.i2cReceiveFrom log1 devAddr 2
      let log2 := log1 ++ [BusOp.recv devAddr 2]
      if r.1 ≠ ERR_CODE_SUCCESS then (r.1, some old, log2)
      else
        let buff0 := toUInt8 (r.2.getD 0 0)
        let buff1 := toUInt8 (r.2.getD 1 0)
        let val : Int := toInt16 (toInt16 ((buff0 <<< 8 ||| buff1 : Nat) : Int) >>> (5 : Nat))
        (ERR_CODE_SUCCESS, some ((val : ℚ) * 0.125), log2)

/-- Embedding of `writeConfigLM75BD`.  `LM75BD_OBC_I2C_ADDR` is a constant of
`lm75bd.h`, which is not part of the sources; it is a parameter here. -/
def writeConfigLM75BD (bus : I2CBus) (LM75BD_OBC_I2C_ADDR : Nat)
    (devAddr osFaultQueueSize osPolarity osOperationMode devOperationMode : Nat)
    (log : List BusOp) : error_code_t × List BusOp :=
  let buff0 : Nat := LM75BD_REG_CONF
  let buff1 : Nat := 0
  let osFaltQueueRegData : Option Nat :=
    match osFaultQueueSize with
    | 1 => some 0
    | 2 => some 1
    | 4 => some 2
    | 6 => some 3
    | _ => none
  match osFaltQueueRegData with
  | none => (ERR_CODE_INVALID_ARG, log)
  | some osFaltQueueRegData =>
    let buff1 := toUInt8 (buff1 ||| (osFaltQueueRegData <<< 3))
    let buff1 := toUInt8 (buff1 ||| (osPolarity <<< 2))
    let buff1 := toUInt8 (buff1 ||| (osOperationMode <<< 1))
    let buff1 := toUInt8 (buff1 ||| devOperationMode)
    let errCode := bus.i2cSendTo log LM75BD_OBC_I2C_ADDR [buff0, buff1]
    let log1 := log ++ [BusOp.send LM75BD_OBC_I2C_ADDR [buff0, buff1]]
    if errCode ≠ ERR_CODE_SUCCESS then (errCode, log1)
    else (ERR_CODE_SUCCESS, log1)

/-- Embedding of `lm75bdInit(config)`. -/
def lm75bdInit (bus : I2CBus) (LM75BD_OBC_I2C_ADDR : Nat) (config : Option lm75bd_config_t)
    (log : List BusOp) : error_code_t × List BusOp :=
  match config with
  | none => (ERR_CODE_INVALID_ARG, log)
  | some config =>
    let r := writeConfigLM75BD bus LM75BD_OBC_I2C_ADDR config.devAddr config.osFaultQueueSize
      config.osPolarity config.osOperationMode config.devOperationMode log
    if r.1 ≠ ERR_CODE_SUCCESS then r
    else (ERR_CODE_SUCCESS, r.2)

/-! ## Thermal manager -/

/-- Modelled from the spec: the event tag `thermal_mgr_event_type_t` of `thermal_mgr.h`,
which is not part of the sources.  A thermal event is a measure command or an
overtemperature interrupt. -/
inductive thermal_mgr_event_type_t where
  | THERMAL_MGR_EVENT_MEASURE_TEMP_CMD
  | THERMAL_MGR_EVENT_OS_INTERRUPT
  deriving DecidableEq, Repr

open thermal_mgr_event_type_t

/-- Modelled from the spec: the event record `thermal_mgr_event_t` of `thermal_mgr.h`,
which is not part of the sources.  It carries no payload beyond the tag. -/
structure thermal_mgr_event_t where
  type : thermal_mgr_event_type_t
  deriving DecidableEq, Repr

/-- Capacity of the thermal manager queue. -/
def THERMAL_MGR_QUEUE_LENGTH : Nat := 10

/-- Modelled from the spec: the overtemperature set-point `LM75BD_DEFAULT_OT_THRESH` of
`lm75bd.h`, which is not part of the sources: 80.0 degrees Celsius. -/
def LM75BD_DEFAULT_OT_THRESH : ℚ := 80.0

/-- Modelled from the spec: the hysteresis threshold `LM75BD_DEFAULT_HYST_THRESH` of
`lm75bd.h`, which is not part of the sources: 75.0 degrees Celsius. -/
def LM75BD_DEFAULT_HYST_THRESH : ℚ := 75.0

/-- Modelled from the spec: the queue primitive `xQueueSend` of the operating system,
which is not part of the sources, on the thermal manager queue.  The queue is
a first-in first-out list of capacity `THERMAL_MGR_QUEUE_LENGTH`; with no
consumer running during the call, the send passes and appends at the tail
when there is free capacity, and fails leaving the queue as it was
otherwise. -/
def xQueueSend (queue : List thermal_mgr_event_t) (item : thermal_mgr_event_t) :
    Bool × List thermal_mgr_event_t :=
  if queue.length < THERMAL_MGR_QUEUE_LENGTH then (true, queue ++ [item]) else (false, queue)

/-- Modelled from the spec: the queue primitive `xQueueReceive` of the operating system,
which is not part of the sources, on the thermal manager queue.  With no
producer running during the call, the receive passes and removes the head
when an event is pending, and reports no event otherwise. -/
def xQueueReceive (queue : List thermal_mgr_event_t) :
    Option thermal_mgr_event_t × List thermal_mgr_event_t :=
  match queue with
  | [] => (none, [])
  | item :: rest => (some item, rest)

/-- An invocation of one of the three callbacks of the thermal manager. -/
inductive Callback where
  | addTemperatureTelemetry (tempC : ℚ)
  | overTemperatureDetected
  | safeOperatingConditions
  deriving DecidableEq, Repr

/-- Embedding of `addTemperatureTelemetry(tempC)`: one telemetry record on the console. -/
def addTemperatureTelemetry (tempC : ℚ) (calls : List Callback) : List Callback :=
  calls ++ [Callback.addTemperatureTelemetry tempC]

/-- Embedding of `overTemperatureDetected()`. -/
def overTemperatureDetected (calls : List Callback) : List Callback :=
  calls ++ [Callback.overTemperatureDetected]

/-- Embedding of `safeOperatingConditions()`. -/
def safeOperatingConditions (calls : List Callback) : List Callback :=
  calls ++ [Callback.safeOperatingConditions]

/-- Embedding of `thermalMgrSendEvent(event)` on the thermal manager queue. -/
def thermalMgrSendEvent (event : Option thermal_mgr_event_t) (queue : List thermal_mgr_event_t) :
    error_code_t × List thermal_mgr_event_t :=
  match event with
  | none => (ERR_CODE_INVALID_ARG, queue)
  | some event =>
    let r := xQueueSend queue event
    if r.1 ≠ true then (ERR_CODE_UNKNOWN, r.2)
    else (ERR_CODE_SUCCESS, r.2)

/-- Embedding of `osHandlerLM75BD()`: the result code of the send is dropped. -/
def osHandlerLM75BD (queue : List thermal_mgr_event_t) : List thermal_mgr_event_t :=
  let event : thermal_mgr_event_t := { type := THERMAL_MGR_EVENT_OS_INTERRUPT }
  (thermalMgrSendEvent (some event) queue).2

/-- State seen by the thermal manager task: the pending events, the bus
transactions so far, the callback invocations so far, and its local `tempC`. -/
structure MgrState where
  queue : List thermal_mgr_event_t
  log : List BusOp
  calls : List Callback
  tempC : ℚ
  deriving DecidableEq, Repr

/-- One pass through the body of the `while (1)` loop of `thermalMgr`. -/
def thermalMgrStep (bus : I2CBus) (LM75BD_OBC_I2C_ADDR : Nat) (s : MgrState) : MgrState :=
  match xQueueReceive s.queue with
  | (none, _) => s
  | (some buffer, queue) =>
    if buffer.type = THERMAL_MGR_EVENT_MEASURE_TEMP_CMD then
      let r := readTempLM75BD bus LM75BD_OBC_I2C_ADDR (some s.tempC) s.log
      let tempC := r.2.1.getD s.tempC
      if r.1 ≠ ERR_CODE_SUCCESS then
        { queue := queue, log := r.2.2, calls := s.calls, tempC := tempC }
      else
        let calls := addTemperatureTelemetry tempC s.calls
        let queue := if tempC ≥ LM75BD_DEFAULT_OT_THRESH then osHandlerLM75BD queue else queue
        { queue := queue, log := r.2.2, calls := calls, tempC := tempC }
    else if buffer.type = THERMAL_MGR_EVENT_OS_INTERRUPT then
      let r := readTempLM75BD bus LM75BD_OBC_I2C_ADDR (some s.tempC) s.log
      let tempC := r.2.1.getD s.tempC
      if r.1 ≠ ERR_CODE_SUCCESS then
        { queue := queue, log := r.2.2, calls := s.calls, tempC := tempC }
      else
        let calls :=
          if tempC ≥ LM75BD_DEFAULT_HYST_THRESH then overTemperatureDetected s.calls
          else safeOperatingConditions s.calls
        { queue := queue, log := r.2.2, calls := calls, tempC := tempC }
    else
      { queue := queue, log := s.log, calls := s.calls, tempC := s.tempC }

/-- The loop of `thermalMgr`, run for `n` passes through its body. -/
def thermalMgr (bus : I2CBus) (LM75BD_OBC_I2C_ADDR : Nat) : Nat → MgrState → MgrState
  | 0, s => s
  | n + 1, s => thermalMgr bus LM75BD_OBC_I2C_ADDR n (thermalMgrStep bus LM75BD_OBC_I2C_ADDR s)

/-! ## Definitions used to state the properties -/

/-- A bus on which every transaction passes and every read delivers the two
bytes `msb`, `lsb`. -/
def constBus (msb lsb : Nat) : I2CBus where
  i2cSendTo := fun _ _ _ => ERR_CODE_SUCCESS
  i2cReceiveFrom := fun _ _ _ => (ERR_CODE_SUCCESS, [msb, lsb])

/-- A bus on which every write fails with `e` and every read would deliver the
two bytes `msb`, `lsb`. -/
def sendFailBus (e : error_code_t) (msb lsb : Nat) : I2CBus where
  i2cSendTo := fun _ _ _ => e
  i2cReceiveFrom := fun _ _ _ => (ERR_CODE_SUCCESS, [msb, lsb])

/-- A bus on which every write passes and every read fails with `e`, the device
having put `data` on the bus. -/
def recvFailBus (e : error_code_t) (data : List Nat) : I2CBus where
  i2cSendTo := fun _ _ _ => ERR_CODE_SUCCESS
  i2cReceiveFrom := fun _ _ _ => (e, data)

/-- Specification side: the two bytes (MSB, LSB) of the 16-bit two's-complement
pattern of `k * 32`, that is `k` left-justified in the 11 most-significant
bits of the temperature register. -/
def specRegisterBytes (k : Int) : Nat × Nat :=
  (((k * 32) % 65536 / 256).toNat, ((k * 32) % 65536 % 256).toNat)

/-- Specification side: the configuration fields read back from a configuration
byte: bits [4:3] through the inverse of the fault-queue table, then bits 2, 1
and 0. -/
def specDecodeConfig (byte : Nat) : Nat × Nat × Nat × Nat :=
  let faultQueueSize : Nat :=
    match (byte >>> 3) &&& 3 with
    | 0 => 1
    | 1 => 2
    | 2 => 4
    | _ => 6
  (faultQueueSize, (byte >>> 2) &&& 1, (byte >>> 1) &&& 1, byte &&& 1)

/-- The data byte `buff[1]` assembled by `writeConfigLM75BD` from the fault-queue
code and the three mode arguments, with the store into `uint8_t` after each
`|=`. -/
def confDataByte (osFaltQueueRegData osPolarity osOperationMode devOperationMode : Nat) : Nat :=
  toUInt8 (toUInt8 (toUInt8 (toUInt8 (0 ||| (osFaltQueueRegData <<< 3)) ||| (osPolarity <<< 2))
    ||| (osOperationMode <<< 1)) ||| devOperationMode)

/-- A call made by one pass through the loop body of `thermalMgr` after its
receive: the sensor read, one of the three callbacks, or `osHandlerLM75BD`. -/
inductive Call where
  | readTempLM75BD
  | addTemperatureTelemetry (tempC : ℚ)
  | osHandlerLM75BD
  | overTemperatureDetected
  | safeOperatingConditions
  deriving DecidableEq, Repr

/-- The body of the `while (1)` loop of `thermalMgr` once more, this time listing
in program order the calls the pass makes after its receive. -/
def thermalMgrStepCalls (bus : I2CBus) (LM75BD_OBC_I2C_ADDR : Nat) (s : MgrState) : List Call :=
  match xQueueReceive s.queue with
  | (none, _) => []
  | (some buffer, _) =>
    if buffer.type = THERMAL_MGR_EVENT_MEASURE_TEMP_CMD then
      let r := readTempLM75BD bus LM75BD_OBC_I2C_ADDR (some s.tempC) s.log
      let tempC := r.2.1.getD s.tempC
      if r.1 ≠ ERR_CODE_SUCCESS then [Call.readTempLM75BD]
      else
        [Call.readTempLM75BD, Call.addTemperatureTelemetry tempC]
          ++ (if tempC ≥ LM75BD_DEFAULT_OT_THRESH then [Call.osHandlerLM75BD] else [])
    else if buffer.type = THERMAL_MGR_EVENT_OS_INTERRUPT then
      let r := readTempLM75BD bus LM75BD_OBC_I2C_ADDR (some s.tempC) s.log
      let tempC := r.2.1.getD s.tempC
      if r.1 ≠ ERR_CODE_SUCCESS then [Call.readTempLM75BD]
      else
        [Call.readTempLM75BD,
          if tempC ≥ LM75BD_DEFAULT_HYST_THRESH then Call.overTemperatureDetected
          else Call.safeOperatingConditions]
    else []

/-- The events received by `n` passes through the loop body of `thermalMgr`, in
the order of their receipt; an empty poll receives nothing. -/
def thermalMgrConsumed (bus : I2CBus) (LM75BD_OBC_I2C_ADDR : Nat) :
    Nat → MgrState → List thermal_mgr_event_t
  | 0, _ => []
  | n + 1, s =>
    (match (xQueueReceive s.queue).1 with
      | some event => [event]
      | none => [])
    ++ thermalMgrConsumed bus LM75BD_OBC_I2C_ADDR n (thermalMgrStep bus LM75BD_OBC_I2C_ADDR s)

/-- An operation on the mailbox: a producer calls `thermalMgrSendEvent`, or the
monitor polls with `xQueueReceive`. -/
inductive MailboxOp where
  | send (event : Option thermal_mgr_event_t)
  | receive
  deriving DecidableEq, Repr

/-- A history of the mailbox: the pending events, the events whose send returned
success (in the order of the sends), and the events handed to the monitor (in
the order of the receives). -/
structure MailboxRun where
  queue : List thermal_mgr_event_t
  accepted : List thermal_mgr_event_t
  received : List thermal_mgr_event_t
  deriving DecidableEq, Repr

/-- One mailbox operation applied to a history. -/
def mailboxStep (m : MailboxRun) (op : MailboxOp) : MailboxRun :=
  match op with
  | MailboxOp.send none =>
    { queue := (thermalMgrSendEvent none m.queue).2, accepted := m.accepted,
      received := m.received }
  | MailboxOp.send (some event) =>
    let r := thermalMgrSendEvent (some event) m.queue
    if r.1 = ERR_CODE_SUCCESS then
      { queue := r.2, accepted := m.accepted ++ [event], received := m.received }
    else
      { queue := r.2, accepted := m.accepted, received := m.received }
  | MailboxOp.receive =>
    match xQueueReceive m.queue with
    | (some event, queue) =>
      { queue := queue, accepted := m.accepted, received := m.received ++ [event] }
    | (none, queue) =>
      { queue := queue, accepted := m.accepted, received := m.received }

/-- A sequence of mailbox operations applied one after the other. -/
def mailboxRun (ops : List MailboxOp) (m : MailboxRun) : MailboxRun :=
  ops.foldl mailboxStep m

/-- A producer submits `event` through `thermalMgrSendEvent` while the monitor is
between two passes. -/
def injectEvent (event : thermal_mgr_event_t) (s : MgrState) : MgrState :=
  { queue := (thermalMgrSendEvent (some event) s.queue).2, log := s.log, calls := s.calls,
    tempC := s.tempC }

/-! ## Arithmetic of the temperature register -/

/-- Placing a byte above another with shift and or is base-256 positional notation. -/
theorem shiftLeft8_or (a b : Nat) (h : b < 256) : a <<< 8 ||| b = a * 256 + b := by
  have key := @Nat.mul_add_lt_is_or 8 b (by simpa using h) a
  rw [Nat.shiftLeft_eq, Nat.mul_comm a (2 ^ 8), ← key]

/-- The value `val` computed by `readTempLM75BD` from the two buffer bytes, in
arithmetic form: the signed reading of the 16-bit word, divided by 32 rounding
down. -/
theorem val_arith (msb lsb : Nat) (hm : msb < 256) (hl : lsb < 256) :
    toInt16 (toInt16 ((msb <<< 8 ||| lsb : Nat) : Int) >>> (5 : Nat))
      = (if msb <<< 8 ||| lsb < 32768 then ((msb <<< 8 ||| lsb : Nat) : Int)
          else ((msb <<< 8 ||| lsb : Nat) : Int) - 65536) / 32 := by
  rw [shiftLeft8_or msb lsb hl, Int.shiftRight_eq_div_pow]
  unfold toInt16
  split <;> omega

/-- What `readTempLM75BD` returns when the destination is present and both bus
transactions pass, the read delivering the bytes `msb`, `lsb`. -/
theorem readTemp_ok (bus : I2CBus) (devAddr msb lsb : Nat) (old : ℚ) (log : List BusOp)
    (hsend : bus.i2cSendTo log devAddr [0x00] = ERR_CODE_SUCCESS)
    (hrecv : bus.i2cReceiveFrom (log ++ [BusOp.send devAddr [0x00]]) devAddr 2
      = (ERR_CODE_SUCCESS, [msb, lsb])) :
    readTempLM75BD bus devAddr (some old) log
      = (ERR_CODE_SUCCESS,
         some (((toInt16 (toInt16 ((toUInt8 msb <<< 8 ||| toUInt8 lsb : Nat) : Int)
            >>> (5 : Nat)) : Int) : ℚ) * 0.125),
         log ++ [BusOp.send devAddr [0x00], BusOp.recv devAddr 2]) := by
  simp [readTempLM75BD, hsend, hrecv]

/-- The same, with the stored value in arithmetic form: the word `msb * 256 + lsb`
read as a signed 16-bit number, divided by 32 rounding down, times 0.125. -/
theorem readTemp_ok_arith (bus : I2CBus) (devAddr msb lsb : Nat) (old : ℚ) (log : List BusOp)
    (hm : msb < 256) (hl : lsb < 256)
    (hsend : bus.i2cSendTo log devAddr [0x00] = ERR_CODE_SUCCESS)
    (hrecv : bus.i2cReceiveFrom (log ++ [BusOp.send devAddr [0x00]]) devAddr 2
      = (ERR_CODE_SUCCESS, [msb, lsb])) :
    readTempLM75BD bus devAddr (some old) log
      = (ERR_CODE_SUCCESS,
         some ((((if msb * 256 + lsb < 32768 then ((msb * 256 + lsb : Nat) : Int)
            else ((msb * 256 + lsb : Nat) : Int) - 65536) / 32 : Int) : ℚ) * 0.125),
         log ++ [BusOp.send devAddr [0x00], BusOp.recv devAddr 2]) := by
  rw [readTemp_ok bus devAddr msb lsb old log hsend hrecv]
  have h8m : toUInt8 msb = msb := by unfold toUInt8; omega
  have h8l : toUInt8 lsb = lsb := by unfold toUInt8; omega
  rw [h8m, h8l, val_arith msb lsb hm hl, shiftLeft8_or msb lsb hl]

/-! ## The configuration write -/

/-- With a fault-queue size of the table, `writeConfigLM75BD` performs one write of
the register address and the data byte to `LM75BD_OBC_I2C_ADDR` and returns
the result code of that write. -/
theorem writeConfig_legal (bus : I2CBus) (A devAddr fq code pol om dm : Nat) (log : List BusOp)
    (hfq : (fq, code) ∈ [(1, 0), (2, 1), (4, 2), (6, 3)]) :
    writeConfigLM75BD bus A devAddr fq pol om dm log
      = (bus.i2cSendTo log A [0x01, confDataByte code pol om dm],
         log ++ [BusOp.send A [0x01, confDataByte code pol om dm]]) := by
  simp only [List.mem_cons, Prod.mk.injEq, List.mem_singleton, List.not_mem_nil, or_false] at hfq
  rcases hfq with ⟨rfl, rfl⟩ | ⟨rfl, rfl⟩ | ⟨rfl, rfl⟩ | ⟨rfl, rfl⟩ <;>
    simp only [writeConfigLM75BD, confDataByte, LM75BD_REG_CONF] <;>
    split <;> simp_all

/-- With a fault-queue size outside the table, `writeConfigLM75BD` returns
`ERR_CODE_INVALID_ARG` and leaves the bus untouched. -/
theorem writeConfig_illegal (bus : I2CBus) (A devAddr fq pol om dm : Nat) (log : List BusOp)
    (hfq : fq ∉ [1, 2, 4, 6]) :
    writeConfigLM75BD bus A devAddr fq pol om dm log = (ERR_CODE_INVALID_ARG, log) := by
  simp only [List.mem_cons, List.mem_singleton, List.not_mem_nil, or_false, not_or] at hfq
  obtain ⟨h1, h2, h4, h6⟩ := hfq
  unfold writeConfigLM75BD
  split
  · exact absurd rfl h1
  · exact absurd rfl h2
  · exact absurd rfl h4
  · exact absurd rfl h6
  · rfl

/-- For mode arguments that are 0 or 1 the stores into `uint8_t` lose nothing:
the data byte is the plain or of the shifted fields. -/
theorem confDataByte_legal (code pol om dm : Nat) (hc : code ≤ 3) (hp : pol ≤ 1) (ho : om ≤ 1)
    (hd : dm ≤ 1) :
    confDataByte code pol om dm = (code <<< 3) ||| (pol <<< 2) ||| (om <<< 1) ||| dm := by
  interval_cases code <;> interval_cases pol <;> interval_cases om <;> interval_cases dm <;> rfl

/-- Reading the fields back from the byte of a legal configuration. -/
theorem specDecodeConfig_encode (fq code pol om dm : Nat)
    (hfq : (fq, code) ∈ [(1, 0), (2, 1), (4, 2), (6, 3)]) (hp : pol ≤ 1) (ho : om ≤ 1)
    (hd : dm ≤ 1) :
    specDecodeConfig ((code <<< 3) ||| (pol <<< 2) ||| (om <<< 1) ||| dm) = (fq, pol, om, dm) := by
  simp only [List.mem_cons, Prod.mk.injEq, List.mem_singleton, List.not_mem_nil, or_false] at hfq
  rcases hfq with ⟨rfl, rfl⟩ | ⟨rfl, rfl⟩ | ⟨rfl, rfl⟩ | ⟨rfl, rfl⟩ <;>
    interval_cases pol <;> interval_cases om <;> interval_cases dm <;> rfl

/-- Reducing one operand of an or modulo 256 before reducing the result changes
nothing. -/
theorem or_mod_256 (a b : Nat) : (a % 256 ||| b) % 256 = (a ||| b) % 256 := by
  apply Nat.eq_of_testBit_eq
  intro i
  have h256 : (256 : Nat) = 2 ^ 8 := rfl
  simp only [h256, Nat.testBit_mod_two_pow, Nat.testBit_or]
  cases decide (i < 8) <;> simp

/-- The data byte for arbitrary arguments: the or of the shifted fields, reduced
to eight bits. -/
theorem confDataByte_eq (code pol om dm : Nat) :
    confDataByte code pol om dm = ((code <<< 3) ||| (pol <<< 2) ||| (om <<< 1) ||| dm) % 256 := by
  simp only [confDataByte, toUInt8, or_mod_256, Nat.zero_or]

/-! ## The claims -/

/-- C1: for every device address and every pair of bytes (MSB, LSB) returned by the
bus, when the output destination is present and both bus transactions succeed,
`readTempLM75BD` first writes the single byte 0x00 to `devAddr`, then reads
exactly two bytes from `devAddr`, returns success, and stores exactly
`s1 * 0.125`, where `s` is the 16-bit two's-complement reading of
`(MSB << 8) | LSB` and `s1` is `s` divided by 32 rounded down. -/
theorem C1_readTemp_success (bus : I2CBus) (devAddr msb lsb : Nat) (old : ℚ)
    (log : List BusOp) (hm : msb < 256) (hl : lsb < 256)
    (hsend : bus.i2cSendTo log devAddr [0x00] = ERR_CODE_SUCCESS)
    (hrecv : bus.i2cReceiveFrom (log ++ [BusOp.send devAddr [0x00]]) devAddr 2
      = (ERR_CODE_SUCCESS, [msb, lsb])) :
    readTempLM75BD bus devAddr (some old) log
      = (ERR_CODE_SUCCESS,
         some ((⌊(((if msb <<< 8 ||| lsb < 32768 then ((msb <<< 8 ||| lsb : Nat) : Int)
                    else ((msb <<< 8 ||| lsb : Nat) : Int) - 65536) : Int) : ℚ) / 32⌋ : ℚ)
                * 0.125),
         log ++ [BusOp.send devAddr [0x00], BusOp.recv devAddr 2]) := by
  rw [readTemp_ok_arith bus devAddr msb lsb old log hm hl hsend hrecv,
    shiftLeft8_or msb lsb hl]
  have hfl : ∀ z : Int, ⌊(z : ℚ) / 32⌋ = z / 32 := by
    intro z
    have := Rat.floor_intCast_div_natCast z 32
    simpa using this
  rw [hfl]

/-- C1 at the bytes 0xE7 0x00 on device address 0x4F. -/
theorem C1_readTemp_success_witness :
    readTempLM75BD (constBus 0xE7 0x00) 0x4F (some 0) []
      = (ERR_CODE_SUCCESS,
         some ((⌊(((if 0xE7 <<< 8 ||| 0x00 < 32768 then ((0xE7 <<< 8 ||| 0x00 : Nat) : Int)
                    else ((0xE7 <<< 8 ||| 0x00 : Nat) : Int) - 65536) : Int) : ℚ) / 32⌋ : ℚ)
                * 0.125),
         [] ++ [BusOp.send 0x4F [0x00], BusOp.recv 0x4F 2]) :=
  C1_readTemp_success (constBus 0xE7 0x00) 0x4F 0xE7 0x00 0 [] (by decide) (by decide) rfl rfl

/-- C2 as stated fails: with the bus returning MSB = 0x64 and LSB = 0x00 the value
stored is 100.0, not 12.5. -/
theorem C2_bytes_64_00_counterexample :
    ¬ ∀ (bus : I2CBus) (devAddr : Nat) (old : ℚ) (log : List BusOp),
        bus.i2cSendTo log devAddr [0x00] = ERR_CODE_SUCCESS →
        bus.i2cReceiveFrom (log ++ [BusOp.send devAddr [0x00]]) devAddr 2
          = (ERR_CODE_SUCCESS, [0x64, 0x00]) →
        (readTempLM75BD bus devAddr (some old) log).2.1 = some 12.5 := by
  intro h
  have h1 := h (constBus 0x64 0x00) 0x4F 0 [] rfl rfl
  rw [readTemp_ok_arith (constBus 0x64 0x00) 0x4F 0x64 0x00 0 [] (by decide) (by decide)
    rfl rfl] at h1
  norm_num at h1

/-- C2, amended: when the bus returns MSB = 0x64 and LSB = 0x00, `readTempLM75BD`
stores 100.0; it is the register bytes 0x0C 0x80 (whose word shifted right by 5
is 0x64 = 100) that make it store 12.5. -/
theorem C2_bytes_amended (bus : I2CBus) (devAddr : Nat) (old : ℚ) (log : List BusOp)
    (hsend : bus.i2cSendTo log devAddr [0x00] = ERR_CODE_SUCCESS) :
    (bus.i2cReceiveFrom (log ++ [BusOp.send devAddr [0x00]]) devAddr 2
        = (ERR_CODE_SUCCESS, [0x64, 0x00]) →
      (readTempLM75BD bus devAddr (some old) log).2.1 = some 100.0)
    ∧ (bus.i2cReceiveFrom (log ++ [BusOp.send devAddr [0x00]]) devAddr 2
        = (ERR_CODE_SUCCESS, [0x0C, 0x80]) →
      (readTempLM75BD bus devAddr (some old) log).2.1 = some 12.5) := by
  constructor
  · intro hrecv
    rw [readTemp_ok_arith bus devAddr 0x64 0x00 old log (by decide) (by decide) hsend hrecv]
    norm_num
  · intro hrecv
    rw [readTemp_ok_arith bus devAddr 0x0C 0x80 old log (by decide) (by decide) hsend hrecv]
    norm_num

/-- C2 amended, on buses that deliver 0x64 0x00 and 0x0C 0x80. -/
theorem C2_bytes_amended_witness :
    (readTempLM75BD (constBus 0x64 0x00) 0x4F (some 0) []).2.1 = some 100.0
    ∧ (readTempLM75BD (constBus 0x0C 0x80) 0x4F (some 0) []).2.1 = some 12.5 :=
  ⟨(C2_bytes_amended (constBus 0x64 0x00) 0x4F 0 [] rfl).1 rfl,
   (C2_bytes_amended (constBus 0x0C 0x80) 0x4F 0 [] rfl).2 rfl⟩

/-- The register bytes of `k * 32` are bytes, and the word they form, read as a
signed 16-bit number and divided by 32, is `k` again. -/
theorem specRegisterBytes_decode (k : Int) (hk1 : -1024 ≤ k) (hk2 : k ≤ 1023) :
    (specRegisterBytes k).1 < 256 ∧ (specRegisterBytes k).2 < 256
    ∧ (if (specRegisterBytes k).1 * 256 + (specRegisterBytes k).2 < 32768
        then (((specRegisterBytes k).1 * 256 + (specRegisterBytes k).2 : Nat) : Int)
        else (((specRegisterBytes k).1 * 256 + (specRegisterBytes k).2 : Nat) : Int) - 65536) / 32
      = k := by
  simp only [specRegisterBytes]
  refine ⟨by omega, by omega, ?_⟩
  split <;> omega

/-- C3: decoding is sign-correct in both domains.  For every integer `k` with
`-1024 ≤ k ≤ 1023`, the two bytes of the 16-bit two's-complement pattern of
`k * 32` are decoded by `readTempLM75BD` to exactly `k * 0.125`; in particular
the pattern for -25 degrees (`k = -200`, bytes 0xE7 0x00) decodes to exactly
-25.0 and the pattern for `k = 100` (bytes 0x0C 0x80) to exactly 12.5. -/
theorem C3_decode_sign_correct (bus : I2CBus) (devAddr : Nat) (old : ℚ) (log : List BusOp)
    (hsend : bus.i2cSendTo log devAddr [0x00] = ERR_CODE_SUCCESS) :
    (∀ k : Int, -1024 ≤ k → k ≤ 1023 →
      bus.i2cReceiveFrom (log ++ [BusOp.send devAddr [0x00]]) devAddr 2
        = (ERR_CODE_SUCCESS, [(specRegisterBytes k).1, (specRegisterBytes k).2]) →
      (readTempLM75BD bus devAddr (some old) log).2.1 = some ((k : ℚ) * 0.125))
    ∧ (specRegisterBytes (-200) = (0xE7, 0x00)
      ∧ (bus.i2cReceiveFrom (log ++ [BusOp.send devAddr [0x00]]) devAddr 2
          = (ERR_CODE_SUCCESS, [0xE7, 0x00]) →
        (readTempLM75BD bus devAddr (some old) log).2.1 = some (-25.0)))
    ∧ (specRegisterBytes 100 = (0x0C, 0x80)
      ∧ (bus.i2cReceiveFrom (log ++ [BusOp.send devAddr [0x00]]) devAddr 2
          = (ERR_CODE_SUCCESS, [0x0C, 0x80]) →
        (readTempLM75BD bus devAddr (some old) log).2.1 = some 12.5)) := by
  have general : ∀ k : Int, -1024 ≤ k → k ≤ 1023 →
      bus.i2cReceiveFrom (log ++ [BusOp.send devAddr [0x00]]) devAddr 2
        = (ERR_CODE_SUCCESS, [(specRegisterBytes k).1, (specRegisterBytes k).2]) →
      (readTempLM75BD bus devAddr (some old) log).2.1 = some ((k : ℚ) * 0.125) := by
    intro k hk1 hk2 hrecv
    obtain ⟨hm, hl, hval⟩ := specRegisterBytes_decode k hk1 hk2
    rw [readTemp_ok_arith bus devAddr _ _ old log hm hl hsend hrecv, hval]
  have hneg : specRegisterBytes (-200) = (0xE7, 0x00) := by decide
  have hpos : specRegisterBytes 100 = (0x0C, 0x80) := by decide
  refine ⟨general, ⟨hneg, ?_⟩, ⟨hpos, ?_⟩⟩
  · intro hrecv
    have h := general (-200) (by norm_num) (by norm_num) (by rw [hneg]; exact hrecv)
    rw [h]; norm_num
  · intro hrecv
    have h := general 100 (by norm_num) (by norm_num) (by rw [hpos]; exact hrecv)
    rw [h]; norm_num

/-- C3 at `k = -1024`, the most negative reading (bytes 0x80 0x00, -128.0), and at
the two named patterns. -/
theorem C3_decode_sign_correct_witness :
    (readTempLM75BD (constBus 0x80 0x00) 0x4F (some 0) []).2.1 = some (((-1024 : Int) : ℚ) * 0.125)
    ∧ (readTempLM75BD (constBus 0xE7 0x00) 0x4F (some 0) []).2.1 = some (-25.0)
    ∧ (readTempLM75BD (constBus 0x0C 0x80) 0x4F (some 0) []).2.1 = some 12.5 :=
  ⟨(C3_decode_sign_correct (constBus 0x80 0x00) 0x4F 0 [] rfl).1 (-1024) (by decide) (by decide)
      (by decide),
   (C3_decode_sign_correct (constBus 0xE7 0x00) 0x4F 0 [] rfl).2.1.2 rfl,
   (C3_decode_sign_correct (constBus 0x0C 0x80) 0x4F 0 [] rfl).2.2.2 rfl⟩

/-- C4: for every legal configuration (fault-queue size in 1, 2, 4, 6 with code
0, 1, 2, 3; polarity, interrupt-output mode and device mode each 0 or 1) the
data byte written by `writeConfigLM75BD` is
`(code << 3) | (polarity << 2) | (interruptMode << 1) | deviceMode`, the four
fields are read back from that byte through the inverse table and bits 2, 1,
0, and two legal configurations that make the same write are equal. -/
theorem C4_config_byte_roundtrip (bus : I2CBus) (A devAddr fq code pol om dm : Nat)
    (log : List BusOp)
    (hfq : (fq, code) ∈ [(1, 0), (2, 1), (4, 2), (6, 3)])
    (hp : pol ≤ 1) (ho : om ≤ 1) (hd : dm ≤ 1) :
    (writeConfigLM75BD bus A devAddr fq pol om dm log).2
        = log ++ [BusOp.send A [0x01, (code <<< 3) ||| (pol <<< 2) ||| (om <<< 1) ||| dm]]
    ∧ specDecodeConfig ((code <<< 3) ||| (pol <<< 2) ||| (om <<< 1) ||| dm) = (fq, pol, om, dm)
    ∧ ∀ devAddr2 fq2 code2 pol2 om2 dm2 : Nat,
        (fq2, code2) ∈ [(1, 0), (2, 1), (4, 2), (6, 3)] → pol2 ≤ 1 → om2 ≤ 1 → dm2 ≤ 1 →
        (writeConfigLM75BD bus A devAddr2 fq2 pol2 om2 dm2 log).2
          = (writeConfigLM75BD bus A devAddr fq pol om dm log).2 →
        (fq2, pol2, om2, dm2) = (fq, pol, om, dm) := by
  have hcode : ∀ f c : Nat, (f, c) ∈ [(1, 0), (2, 1), (4, 2), (6, 3)] → c ≤ 3 := by
    intro f c h
    simp only [List.mem_cons, Prod.mk.injEq, List.mem_singleton, List.not_mem_nil,
      or_false] at h
    omega
  have hwrite : ∀ d f c p o m : Nat, (f, c) ∈ [(1, 0), (2, 1), (4, 2), (6, 3)] →
      p ≤ 1 → o ≤ 1 → m ≤ 1 →
      (writeConfigLM75BD bus A d f p o m log).2
        = log ++ [BusOp.send A [0x01, (c <<< 3) ||| (p <<< 2) ||| (o <<< 1) ||| m]] := by
    intro d f c p o m hf hp1 ho1 hm1
    rw [writeConfig_legal bus A d f c p o m log hf,
      confDataByte_legal c p o m (hcode f c hf) hp1 ho1 hm1]
  refine ⟨hwrite devAddr fq code pol om dm hfq hp ho hd,
    specDecodeConfig_encode fq code pol om dm hfq hp ho hd, ?_⟩
  intro devAddr2 fq2 code2 pol2 om2 dm2 hfq2 hp2 ho2 hd2 heq
  rw [hwrite devAddr2 fq2 code2 pol2 om2 dm2 hfq2 hp2 ho2 hd2,
    hwrite devAddr fq code pol om dm hfq hp ho hd] at heq
  have hbyte : (code2 <<< 3) ||| (pol2 <<< 2) ||| (om2 <<< 1) ||| dm2
      = (code <<< 3) ||| (pol <<< 2) ||| (om <<< 1) ||| dm := by
    simpa using heq
  rw [← specDecodeConfig_encode fq2 code2 pol2 om2 dm2 hfq2 hp2 ho2 hd2,
    ← specDecodeConfig_encode fq code pol om dm hfq hp ho hd, hbyte]

/-- C4 at fault-queue size 6, active-high polarity, comparator mode, shutdown:
the byte 0x1D. -/
theorem C4_config_byte_roundtrip_witness :
    (writeConfigLM75BD (constBus 0 0) 0x4F 0x4F 6 1 0 1 []).2 = [] ++ [BusOp.send 0x4F [0x01, 0x1D]]
    ∧ specDecodeConfig 0x1D = (6, 1, 0, 1) :=
  ⟨(C4_config_byte_roundtrip (constBus 0 0) 0x4F 0x4F 6 3 1 0 1 [] (by decide) (by decide)
      (by decide) (by decide)).1,
   (C4_config_byte_roundtrip (constBus 0 0) 0x4F 0x4F 6 3 1 0 1 [] (by decide) (by decide)
      (by decide) (by decide)).2.1⟩

/-- C5: for every fault-queue size outside 1, 2, 4, 6 and every value of the other
arguments, `writeConfigLM75BD`, and `lm75bdInit` with such a configuration,
return the invalid-argument code and perform no bus write. -/
theorem C5_illegal_fault_queue_rejected (bus : I2CBus) (A devAddr fq pol om dm : Nat)
    (log : List BusOp) (hfq : fq ∉ [1, 2, 4, 6]) :
    writeConfigLM75BD bus A devAddr fq pol om dm log = (ERR_CODE_INVALID_ARG, log)
    ∧ lm75bdInit bus A (some ⟨devAddr, fq, pol, om, dm⟩) log = (ERR_CODE_INVALID_ARG, log) := by
  have h := writeConfig_illegal bus A devAddr fq pol om dm log hfq
  refine ⟨h, ?_⟩
  simp [lm75bdInit, h]

/-- C5 at fault-queue size 3. -/
theorem C5_illegal_fault_queue_rejected_witness :
    writeConfigLM75BD (constBus 0 0) 0x4F 0x4F 3 0 0 0 [] = (ERR_CODE_INVALID_ARG, [])
    ∧ lm75bdInit (constBus 0 0) 0x4F (some ⟨0x4F, 3, 0, 0, 0⟩) [] = (ERR_CODE_INVALID_ARG, []) :=
  C5_illegal_fault_queue_rejected (constBus 0 0) 0x4F 0x4F 3 0 0 0 [] (by decide)

/-- C6, the code at a configuration whose `devAddr` (0x48) differs from
`LM75BD_OBC_I2C_ADDR` (0x4F): whatever the bus answers, the single write of
`lm75bdInit` is addressed to 0x4F, not to the configured 0x48. -/
theorem C6_init_write_address_at_failing_input (bus : I2CBus) (log : List BusOp) :
    (lm75bdInit bus 0x4F (some ⟨0x48, 2, 0, 0, 0⟩) log).2
      = log ++ [BusOp.send 0x4F [0x01, 0x08]] := by
  have h := writeConfig_legal bus 0x4F 0x48 2 1 0 0 0 log (by decide)
  have hb : confDataByte 1 0 0 0 = 0x08 := by decide
  rw [hb] at h
  simp only [lm75bdInit, h]
  split <;> rfl

/-- C7: for every present configuration with a legal fault-queue size, `lm75bdInit`
performs exactly one bus write, whose payload is the two bytes 0x01 and the
encoded configuration byte, performs no bus read, and returns exactly the
result code of that write. -/
theorem C7_init_single_write (bus : I2CBus) (A : Nat) (config : lm75bd_config_t) (code : Nat)
    (log : List BusOp)
    (hfq : (config.osFaultQueueSize, code) ∈ [(1, 0), (2, 1), (4, 2), (6, 3)]) :
    ∃ addr : Nat,
      lm75bdInit bus A (some config) log
        = (bus.i2cSendTo log addr
            [0x01, ((code <<< 3) ||| (config.osPolarity <<< 2) ||| (config.osOperationMode <<< 1)
              ||| config.devOperationMode) % 256],
           log ++ [BusOp.send addr
            [0x01, ((code <<< 3) ||| (config.osPolarity <<< 2) ||| (config.osOperationMode <<< 1)
              ||| config.devOperationMode) % 256]]) := by
  refine ⟨A, ?_⟩
  have h := writeConfig_legal bus A config.devAddr config.osFaultQueueSize code config.osPolarity
    config.osOperationMode config.devOperationMode log hfq
  rw [confDataByte_eq] at h
  simp only [lm75bdInit, h]
  split
  · rfl
  · rename_i hok
    simp only [ne_eq, not_not] at hok
    rw [hok]

/-- C7 on a bus whose writes fail with code 7: the failure comes back unchanged
after the one write. -/
theorem C7_init_single_write_witness :
    ∃ addr : Nat,
      lm75bdInit (sendFailBus (ERR_CODE_OTHER 7) 0 0) 0x4F (some ⟨0x4F, 4, 255, 1, 0⟩) []
        = ((sendFailBus (ERR_CODE_OTHER 7) 0 0).i2cSendTo [] addr
            [0x01, ((2 <<< 3) ||| (255 <<< 2) ||| (1 <<< 1) ||| 0) % 256],
           [] ++ [BusOp.send addr
            [0x01, ((2 <<< 3) ||| (255 <<< 2) ||| (1 <<< 1) ||| 0) % 256]]) :=
  C7_init_single_write (sendFailBus (ERR_CODE_OTHER 7) 0 0) 0x4F ⟨0x4F, 4, 255, 1, 0⟩ 2 []
    (by decide)

/-- C8: absent arguments are rejected before any bus transaction.  `readTempLM75BD`
with an absent output destination returns invalid-argument and performs no bus
transaction, for every device address; `lm75bdInit` with an absent
configuration returns invalid-argument and performs no bus write. -/
theorem C8_absent_arguments_rejected (bus : I2CBus) (A devAddr : Nat) (log : List BusOp) :
    readTempLM75BD bus devAddr none log = (ERR_CODE_INVALID_ARG, none, log)
    ∧ lm75bdInit bus A none log = (ERR_CODE_INVALID_ARG, log) :=
  ⟨rfl, rfl⟩

/-- C9: `readTempLM75BD` is atomic on bus failure.  If the register-select write
fails, no read is attempted, the bus error code is returned unchanged and the
destination keeps its previous value; if the write succeeds but the two-byte
read fails, the bus error code is returned unchanged and the destination keeps
its previous value.  Hence the function returns success if and only if the
destination is present and both transactions succeed. -/
theorem C9_readTemp_atomic (bus : I2CBus) (devAddr : Nat) (temp : Option ℚ) (old : ℚ)
    (log : List BusOp) :
    (bus.i2cSendTo log devAddr [0x00] ≠ ERR_CODE_SUCCESS →
      readTempLM75BD bus devAddr (some old) log
        = (bus.i2cSendTo log devAddr [0x00], some old, log ++ [BusOp.send devAddr [0x00]]))
    ∧ (bus.i2cSendTo log devAddr [0x00] = ERR_CODE_SUCCESS →
       (bus.i2cReceiveFrom (log ++ [BusOp.send devAddr [0x00]]) devAddr 2).1 ≠ ERR_CODE_SUCCESS →
      readTempLM75BD bus devAddr (some old) log
        = ((bus.i2cReceiveFrom (log ++ [BusOp.send devAddr [0x00]]) devAddr 2).1, some old,
           log ++ [BusOp.send devAddr [0x00], BusOp.recv devAddr 2]))
    ∧ ((readTempLM75BD bus devAddr temp log).1 = ERR_CODE_SUCCESS ↔
        (temp.isSome = true
         ∧ bus.i2cSendTo log devAddr [0x00] = ERR_CODE_SUCCESS
         ∧ (bus.i2cReceiveFrom (log ++ [BusOp.send devAddr [0x00]]) devAddr 2).1
            = ERR_CODE_SUCCESS)) := by
  refine ⟨?_, ?_, ?_⟩
  · intro hsend
    simp [readTempLM75BD, hsend]
  · intro hsend hrecv
    simp [readTempLM75BD, hsend, hrecv]
  · cases temp with
    | none => simp [readTempLM75BD]
    | some v =>
      by_cases hsend : bus.i2cSendTo log devAddr [0x00] = ERR_CODE_SUCCESS
      · by_cases hrecv :
            (bus.i2cReceiveFrom (log ++ [BusOp.send devAddr [0x00]]) devAddr 2).1
              = ERR_CODE_SUCCESS
        · simp [readTempLM75BD, hsend, hrecv]
        · simp [readTempLM75BD, hsend, hrecv]
      · simp [readTempLM75BD, hsend]

/-- C9 on a bus whose writes fail with code 3, and on a bus whose reads fail with
code 5 after delivering a first byte: the code comes back, the destination
still holds 21.5. -/
theorem C9_readTemp_atomic_witness :
    readTempLM75BD (sendFailBus (ERR_CODE_OTHER 3) 0x52 0x00) 0x4F (some 21.5) []
        = (ERR_CODE_OTHER 3, some 21.5, [] ++ [BusOp.send 0x4F [0x00]])
    ∧ readTempLM75BD (recvFailBus (ERR_CODE_OTHER 5) [0x52]) 0x4F (some 21.5) []
        = (ERR_CODE_OTHER 5, some 21.5, [] ++ [BusOp.send 0x4F [0x00], BusOp.recv 0x4F 2]) :=
  ⟨(C9_readTemp_atomic (sendFailBus (ERR_CODE_OTHER 3) 0x52 0x00) 0x4F none 21.5 []).1
      (by decide),
   (C9_readTemp_atomic (recvFailBus (ERR_CODE_OTHER 5) [0x52]) 0x4F none 21.5 []).2.1
      rfl (by decide)⟩

/-- C10: interrupt-path policy.  For every pass of the monitor that consumes an
overtemperature-interrupt event and whose sensor read succeeds with sample
`t`, exactly one callback is invoked: `overTemperatureDetected` if
`t ≥ 75.0` and `safeOperatingConditions` if `t < 75.0`; no telemetry is
emitted and no event is enqueued.  The choice depends on the current sample
only, so two consecutive interrupt events with samples on the same side of
75.0 invoke the same callback twice. -/
theorem C10_interrupt_path_policy (bus : I2CBus) (A : Nat) (s : MgrState)
    (rest : List thermal_mgr_event_t) (t : ℚ) (log1 : List BusOp)
    (hq : s.queue = ⟨THERMAL_MGR_EVENT_OS_INTERRUPT⟩ :: rest)
    (hread : readTempLM75BD bus A (some s.tempC) s.log = (ERR_CODE_SUCCESS, some t, log1)) :
    thermalMgrStep bus A s
        = { queue := rest, log := log1,
            calls := s.calls ++ [if 75.0 ≤ t then Callback.overTemperatureDetected
              else Callback.safeOperatingConditions],
            tempC := t }
    ∧ ∀ (rest2 : List thermal_mgr_event_t) (t2 : ℚ) (log2 : List BusOp),
        rest = ⟨THERMAL_MGR_EVENT_OS_INTERRUPT⟩ :: rest2 →
        readTempLM75BD bus A (some t) log1 = (ERR_CODE_SUCCESS, some t2, log2) →
        (75.0 ≤ t ↔ 75.0 ≤ t2) →
        thermalMgr bus A 2 s
          = { queue := rest2, log := log2,
              calls := s.calls ++
                [if 75.0 ≤ t then Callback.overTemperatureDetected
                  else Callback.safeOperatingConditions,
                 if 75.0 ≤ t then Callback.overTemperatureDetected
                  else Callback.safeOperatingConditions],
              tempC := t2 } := by
  have step : ∀ (u : MgrState) (r : List thermal_mgr_event_t) (v : ℚ) (l : List BusOp),
      u.queue = ⟨THERMAL_MGR_EVENT_OS_INTERRUPT⟩ :: r →
      readTempLM75BD bus A (some u.tempC) u.log = (ERR_CODE_SUCCESS, some v, l) →
      thermalMgrStep bus A u
        = { queue := r, log := l,
            calls := u.calls ++ [if 75.0 ≤ v then Callback.overTemperatureDetected
              else Callback.safeOperatingConditions],
            tempC := v } := by
    intro u r v l hu hr
    simp only [thermalMgrStep, hu, xQueueReceive, hr, LM75BD_DEFAULT_HYST_THRESH,
      overTemperatureDetected, safeOperatingConditions]
    by_cases hv : (75.0 : ℚ) ≤ v <;> simp [hv]
  refine ⟨step s rest t log1 hq hread, ?_⟩
  intro rest2 t2 log2 hrest hread2 hside
  have h1 := step s rest t log1 hq hread
  simp only [thermalMgr]
  rw [h1, step _ rest2 t2 log2 hrest hread2]
  by_cases ht : (75.0 : ℚ) ≤ t
  · have ht2 : (75.0 : ℚ) ≤ t2 := hside.mp ht
    simp [ht, ht2]
  · have ht2 : ¬ (75.0 : ℚ) ≤ t2 := fun h => ht (hside.mpr h)
    simp [ht, ht2]

/-- C10 on a bus that delivers 0x46 0x00 (70.0 degrees) to two pending interrupt
events: `safeOperatingConditions` is invoked by the first pass and again by
the second. -/
theorem C10_interrupt_path_policy_witness :
    thermalMgrStep (constBus 0x46 0x00) 0x4F
        ⟨[⟨THERMAL_MGR_EVENT_OS_INTERRUPT⟩, ⟨THERMAL_MGR_EVENT_OS_INTERRUPT⟩], [], [], 0⟩
      = { queue := [⟨THERMAL_MGR_EVENT_OS_INTERRUPT⟩],
          log := [BusOp.send 0x4F [0x00], BusOp.recv 0x4F 2],
          calls := [] ++ [if (75.0 : ℚ) ≤ 70 then Callback.overTemperatureDetected
            else Callback.safeOperatingConditions],
          tempC := 70 }
    ∧ thermalMgr (constBus 0x46 0x00) 0x4F 2
        ⟨[⟨THERMAL_MGR_EVENT_OS_INTERRUPT⟩, ⟨THERMAL_MGR_EVENT_OS_INTERRUPT⟩], [], [], 0⟩
      = { queue := [],
          log := [BusOp.send 0x4F [0x00], BusOp.recv 0x4F 2, BusOp.send 0x4F [0x00],
            BusOp.recv 0x4F 2],
          calls := [] ++
            [if (75.0 : ℚ) ≤ 70 then Callback.overTemperatureDetected
              else Callback.safeOperatingConditions,
             if (75.0 : ℚ) ≤ 70 then Callback.overTemperatureDetected
              else Callback.safeOperatingConditions],
          tempC := 70 } := by
  have hread : ∀ (old : ℚ) (log : List BusOp),
      readTempLM75BD (constBus 0x46 0x00) 0x4F (some old) log
        = (ERR_CODE_SUCCESS, some 70, log ++ [BusOp.send 0x4F [0x00], BusOp.recv 0x4F 2]) := by
    intro old log
    rw [readTemp_ok_arith (constBus 0x46 0x00) 0x4F 0x46 0x00 old log (by decide) (by decide)
      rfl rfl]
    norm_num
  have h := C10_interrupt_path_policy (constBus 0x46 0x00) 0x4F
    ⟨[⟨THERMAL_MGR_EVENT_OS_INTERRUPT⟩, ⟨THERMAL_MGR_EVENT_OS_INTERRUPT⟩], [], [], 0⟩
    [⟨THERMAL_MGR_EVENT_OS_INTERRUPT⟩] 70 [BusOp.send 0x4F [0x00], BusOp.recv 0x4F 2]
    rfl (hread 0 [])
  exact ⟨h.1, h.2 [] 70 _ rfl (hread 70 _) Iff.rfl⟩

/-! ## The monitor, one pass at a time -/

/-- The interrupt bridge on the queue: one overtemperature-interrupt event at the
tail when there is free capacity, nothing otherwise. -/
theorem osHandler_eq (queue : List thermal_mgr_event_t) :
    osHandlerLM75BD queue
      = if queue.length < 10 then queue ++ [⟨THERMAL_MGR_EVENT_OS_INTERRUPT⟩] else queue := by
  unfold osHandlerLM75BD thermalMgrSendEvent xQueueSend THERMAL_MGR_QUEUE_LENGTH
  by_cases h : queue.length < 10 <;> simp [h]

/-- A measure pass whose read succeeds with sample `t`. -/
theorem step_measure_ok (bus : I2CBus) (A : Nat) (s : MgrState)
    (rest : List thermal_mgr_event_t) (t : ℚ) (log1 : List BusOp)
    (hq : s.queue = ⟨THERMAL_MGR_EVENT_MEASURE_TEMP_CMD⟩ :: rest)
    (hread : readTempLM75BD bus A (some s.tempC) s.log = (ERR_CODE_SUCCESS, some t, log1)) :
    thermalMgrStep bus A s
      = { queue := if 80.0 ≤ t then osHandlerLM75BD rest else rest,
          log := log1,
          calls := s.calls ++ [Callback.addTemperatureTelemetry t],
          tempC := t } := by
  simp only [thermalMgrStep, hq, xQueueReceive, hread, LM75BD_DEFAULT_OT_THRESH,
    addTemperatureTelemetry]
  simp

/-- An interrupt pass whose read succeeds with sample `t`. -/
theorem step_interrupt_ok (bus : I2CBus) (A : Nat) (s : MgrState)
    (rest : List thermal_mgr_event_t) (t : ℚ) (log1 : List BusOp)
    (hq : s.queue = ⟨THERMAL_MGR_EVENT_OS_INTERRUPT⟩ :: rest)
    (hread : readTempLM75BD bus A (some s.tempC) s.log = (ERR_CODE_SUCCESS, some t, log1)) :
    thermalMgrStep bus A s
      = { queue := rest, log := log1,
          calls := s.calls ++ [if 75.0 ≤ t then Callback.overTemperatureDetected
            else Callback.safeOperatingConditions],
          tempC := t } := by
  simp only [thermalMgrStep, hq, xQueueReceive, hread, LM75BD_DEFAULT_HYST_THRESH,
    overTemperatureDetected, safeOperatingConditions]
  by_cases hv : (75.0 : ℚ) ≤ t <;> simp [hv]

/-- A read that does not succeed with a present destination leaves the
destination as it was, after one register-select write and at most one
two-byte read. -/
theorem readTemp_fail (bus : I2CBus) (A : Nat) (old : ℚ) (log : List BusOp)
    (hfail : (readTempLM75BD bus A (some old) log).1 ≠ ERR_CODE_SUCCESS) :
    (readTempLM75BD bus A (some old) log).2.1 = some old
    ∧ ((readTempLM75BD bus A (some old) log).2.2 = log ++ [BusOp.send A [0x00]]
      ∨ (readTempLM75BD bus A (some old) log).2.2
          = log ++ [BusOp.send A [0x00], BusOp.recv A 2]) := by
  by_cases hsend : bus.i2cSendTo log A [0x00] = ERR_CODE_SUCCESS
  · by_cases hrecv :
        (bus.i2cReceiveFrom (log ++ [BusOp.send A [0x00]]) A 2).1 = ERR_CODE_SUCCESS
    · exact absurd (by simp [readTempLM75BD, hsend, hrecv]) hfail
    · simp [readTempLM75BD, hsend, hrecv]
  · simp [readTempLM75BD, hsend]

/-- A pass that consumes an event and whose read does not succeed. -/
theorem step_fail (bus : I2CBus) (A : Nat) (s : MgrState) (event : thermal_mgr_event_t)
    (rest : List thermal_mgr_event_t) (hq : s.queue = event :: rest)
    (hfail : (readTempLM75BD bus A (some s.tempC) s.log).1 ≠ ERR_CODE_SUCCESS) :
    thermalMgrStep bus A s
      = { queue := rest, log := (readTempLM75BD bus A (some s.tempC) s.log).2.2,
          calls := s.calls, tempC := s.tempC } := by
  have hold := (readTemp_fail bus A s.tempC s.log hfail).1
  obtain ⟨ty⟩ := event
  cases ty <;> simp [thermalMgrStep, hq, xQueueReceive, hfail, hold]

/-- A read on a bus that delivers 0x52 0x00: 82.0 degrees. -/
theorem readTemp_constBus_82 (A : Nat) (old : ℚ) (log : List BusOp) :
    readTempLM75BD (constBus 0x52 0x00) A (some old) log
      = (ERR_CODE_SUCCESS, some 82, log ++ [BusOp.send A [0x00], BusOp.recv A 2]) := by
  rw [readTemp_ok_arith (constBus 0x52 0x00) A 0x52 0x00 old log (by decide) (by decide) rfl rfl]
  norm_num

/-- A read on a bus that delivers 0x46 0x00: 70.0 degrees. -/
theorem readTemp_constBus_70 (A : Nat) (old : ℚ) (log : List BusOp) :
    readTempLM75BD (constBus 0x46 0x00) A (some old) log
      = (ERR_CODE_SUCCESS, some 70, log ++ [BusOp.send A [0x00], BusOp.recv A 2]) := by
  rw [readTemp_ok_arith (constBus 0x46 0x00) A 0x46 0x00 old log (by decide) (by decide) rfl rfl]
  norm_num

/-- C11: measure-path policy.  For every pass of the monitor that consumes a
measure command and whose sensor read succeeds with sample `t`, the telemetry
callback is invoked exactly once with the value `t`, first among the calls
that follow the read; an overtemperature-interrupt event is submitted to the
mailbox if and only if `t ≥ 80.0`; and neither `overTemperatureDetected` nor
`safeOperatingConditions` is invoked in that pass. -/
theorem C11_measure_path_policy (bus : I2CBus) (A : Nat) (s : MgrState)
    (rest : List thermal_mgr_event_t) (t : ℚ) (log1 : List BusOp)
    (hq : s.queue = ⟨THERMAL_MGR_EVENT_MEASURE_TEMP_CMD⟩ :: rest)
    (hread : readTempLM75BD bus A (some s.tempC) s.log = (ERR_CODE_SUCCESS, some t, log1)) :
    thermalMgrStep bus A s
        = { queue := if 80.0 ≤ t
              then (thermalMgrSendEvent (some ⟨THERMAL_MGR_EVENT_OS_INTERRUPT⟩) rest).2
              else rest,
            log := log1,
            calls := s.calls ++ [Callback.addTemperatureTelemetry t],
            tempC := t }
    ∧ thermalMgrStepCalls bus A s
        = [Call.readTempLM75BD, Call.addTemperatureTelemetry t]
            ++ (if 80.0 ≤ t then [Call.osHandlerLM75BD] else [])
    ∧ (Call.osHandlerLM75BD ∈ thermalMgrStepCalls bus A s ↔ 80.0 ≤ t) := by
  have hcalls : thermalMgrStepCalls bus A s
      = [Call.readTempLM75BD, Call.addTemperatureTelemetry t]
          ++ (if 80.0 ≤ t then [Call.osHandlerLM75BD] else []) := by
    simp only [thermalMgrStepCalls, hq, xQueueReceive, hread, LM75BD_DEFAULT_OT_THRESH]
    simp
  refine ⟨?_, hcalls, ?_⟩
  · rw [step_measure_ok bus A s rest t log1 hq hread]
    rfl
  · rw [hcalls]
    by_cases ht : (80.0 : ℚ) ≤ t <;> simp [ht]

/-- C11 on a bus that delivers 0x52 0x00 (82.0 degrees) with one further event
pending: telemetry at 82.0, then the interrupt event behind the pending one. -/
theorem C11_measure_path_policy_witness :
    thermalMgrStep (constBus 0x52 0x00) 0x4F
        ⟨[⟨THERMAL_MGR_EVENT_MEASURE_TEMP_CMD⟩, ⟨THERMAL_MGR_EVENT_MEASURE_TEMP_CMD⟩], [], [], 0⟩
      = { queue := if (80.0 : ℚ) ≤ 82
            then (thermalMgrSendEvent (some ⟨THERMAL_MGR_EVENT_OS_INTERRUPT⟩)
              [⟨THERMAL_MGR_EVENT_MEASURE_TEMP_CMD⟩]).2
            else [⟨THERMAL_MGR_EVENT_MEASURE_TEMP_CMD⟩],
          log := [] ++ [BusOp.send 0x4F [0x00], BusOp.recv 0x4F 2],
          calls := [] ++ [Callback.addTemperatureTelemetry 82],
          tempC := 82 } :=
  (C11_measure_path_policy (constBus 0x52 0x00) 0x4F
    ⟨[⟨THERMAL_MGR_EVENT_MEASURE_TEMP_CMD⟩, ⟨THERMAL_MGR_EVENT_MEASURE_TEMP_CMD⟩], [], [], 0⟩
    [⟨THERMAL_MGR_EVENT_MEASURE_TEMP_CMD⟩] 82 ([] ++ [BusOp.send 0x4F [0x00], BusOp.recv 0x4F 2])
    rfl (readTemp_constBus_82 0x4F 0 [])).1

/-- C12: skip-cycle on bus failure.  For every pass of the monitor that consumes an
event (of either type) and whose sensor read fails, no callback is invoked, no
event is enqueued, exactly one read is attempted, and the monitor goes on with
the mailbox equal to its previous contents minus the consumed event.  An empty
poll likewise invokes nothing and performs no bus transaction. -/
theorem C12_skip_cycle_on_bus_failure (bus : I2CBus) (A : Nat) (s : MgrState) :
    (∀ (event : thermal_mgr_event_t) (rest : List thermal_mgr_event_t),
      s.queue = event :: rest →
      (readTempLM75BD bus A (some s.tempC) s.log).1 ≠ ERR_CODE_SUCCESS →
      thermalMgrStep bus A s
          = { queue := rest, log := (readTempLM75BD bus A (some s.tempC) s.log).2.2,
              calls := s.calls, tempC := s.tempC }
      ∧ ((readTempLM75BD bus A (some s.tempC) s.log).2.2 = s.log ++ [BusOp.send A [0x00]]
        ∨ (readTempLM75BD bus A (some s.tempC) s.log).2.2
            = s.log ++ [BusOp.send A [0x00], BusOp.recv A 2])
      ∧ thermalMgrStepCalls bus A s = [Call.readTempLM75BD])
    ∧ (s.queue = [] → thermalMgrStep bus A s = s ∧ thermalMgrStepCalls bus A s = []) := by
  constructor
  · intro event rest hq hfail
    refine ⟨step_fail bus A s event rest hq hfail,
      (readTemp_fail bus A s.tempC s.log hfail).2, ?_⟩
    obtain ⟨ty⟩ := event
    cases ty <;> simp [thermalMgrStepCalls, hq, xQueueReceive, hfail]
  · intro hq
    constructor
    · simp [thermalMgrStep, hq, xQueueReceive]
    · simp [thermalMgrStepCalls, hq, xQueueReceive]

/-- C12 on a bus whose writes fail with code 3, a measure command and an interrupt
event pending; and on an empty mailbox. -/
theorem C12_skip_cycle_on_bus_failure_witness :
    thermalMgrStep (sendFailBus (ERR_CODE_OTHER 3) 0x52 0x00) 0x4F
        ⟨[⟨THERMAL_MGR_EVENT_MEASURE_TEMP_CMD⟩, ⟨THERMAL_MGR_EVENT_OS_INTERRUPT⟩], [], [], 21⟩
      = { queue := [⟨THERMAL_MGR_EVENT_OS_INTERRUPT⟩],
          log := (readTempLM75BD (sendFailBus (ERR_CODE_OTHER 3) 0x52 0x00) 0x4F (some 21) []).2.2,
          calls := [], tempC := 21 }
    ∧ thermalMgrStep (constBus 0x52 0x00) 0x4F ⟨[], [], [], 21⟩ = ⟨[], [], [], 21⟩ :=
  ⟨((C12_skip_cycle_on_bus_failure (sendFailBus (ERR_CODE_OTHER 3) 0x52 0x00) 0x4F
      ⟨[⟨THERMAL_MGR_EVENT_MEASURE_TEMP_CMD⟩, ⟨THERMAL_MGR_EVENT_OS_INTERRUPT⟩], [], [], 21⟩).1
      ⟨THERMAL_MGR_EVENT_MEASURE_TEMP_CMD⟩ [⟨THERMAL_MGR_EVENT_OS_INTERRUPT⟩] rfl
      (by simp [readTempLM75BD, sendFailBus])).1,
   ((C12_skip_cycle_on_bus_failure (constBus 0x52 0x00) 0x4F ⟨[], [], [], 21⟩).2 rfl).1⟩

/-- On an empty mailbox every pass is an empty poll: the state stays as it is. -/
theorem thermalMgr_empty (bus : I2CBus) (A : Nat) (n : Nat) (s : MgrState)
    (hq : s.queue = []) : thermalMgr bus A n s = s := by
  induction n with
  | zero => rfl
  | succ k ih =>
    have hstep : thermalMgrStep bus A s = s := by
      simp [thermalMgrStep, hq, xQueueReceive]
    simp only [thermalMgr, hstep, ih]

/-- One more pass: the loop run for `n + 1` passes is a first pass followed by `n`
passes. -/
theorem thermalMgr_succ (bus : I2CBus) (A : Nat) (n : Nat) (s : MgrState) :
    thermalMgr bus A (n + 1) s = thermalMgr bus A n (thermalMgrStep bus A s) := rfl

/-- C13: end-to-end scenario.  From a mailbox holding one measure command, with the
bus returning 0x52 0x00 (82.0 degrees) on every read, the monitor runs two
passes until the mailbox is empty and the callback trace is exactly
`[telemetry 82.0, overTemperatureDetected]`; after one more measure command
is injected, with the bus returning 0x46 0x00 (70.0 degrees), the monitor
runs one pass until the mailbox is empty and adds exactly `[telemetry 70.0]`,
with no interrupt event synthesized and neither `overTemperatureDetected` nor
`safeOperatingConditions` invoked.  Further passes are empty polls. -/
theorem C13_end_to_end_scenario (A : Nat) (log0 : List BusOp) (temp0 : ℚ) (n : Nat) :
    thermalMgr (constBus 0x52 0x00) A 1 ⟨[⟨THERMAL_MGR_EVENT_MEASURE_TEMP_CMD⟩], log0, [], temp0⟩
      = ⟨[⟨THERMAL_MGR_EVENT_OS_INTERRUPT⟩],
         log0 ++ [BusOp.send A [0x00], BusOp.recv A 2],
         [Callback.addTemperatureTelemetry 82.0], 82.0⟩
    ∧ thermalMgr (constBus 0x52 0x00) A (n + 2)
        ⟨[⟨THERMAL_MGR_EVENT_MEASURE_TEMP_CMD⟩], log0, [], temp0⟩
      = ⟨[],
         log0 ++ [BusOp.send A [0x00], BusOp.recv A 2, BusOp.send A [0x00], BusOp.recv A 2],
         [Callback.addTemperatureTelemetry 82.0, Callback.overTemperatureDetected], 82.0⟩
    ∧ thermalMgr (constBus 0x46 0x00) A (n + 1)
        (injectEvent ⟨THERMAL_MGR_EVENT_MEASURE_TEMP_CMD⟩
          ⟨[],
           log0 ++ [BusOp.send A [0x00], BusOp.recv A 2, BusOp.send A [0x00], BusOp.recv A 2],
           [Callback.addTemperatureTelemetry 82.0, Callback.overTemperatureDetected], 82.0⟩)
      = ⟨[],
         log0 ++ [BusOp.send A [0x00], BusOp.recv A 2, BusOp.send A [0x00], BusOp.recv A 2,
           BusOp.send A [0x00], BusOp.recv A 2],
         [Callback.addTemperatureTelemetry 82.0, Callback.overTemperatureDetected]
           ++ [Callback.addTemperatureTelemetry 70.0], 70.0⟩ := by
  have h1 : thermalMgrStep (constBus 0x52 0x00) A
      ⟨[⟨THERMAL_MGR_EVENT_MEASURE_TEMP_CMD⟩], log0, [], temp0⟩
      = ⟨[⟨THERMAL_MGR_EVENT_OS_INTERRUPT⟩],
         log0 ++ [BusOp.send A [0x00], BusOp.recv A 2],
         [Callback.addTemperatureTelemetry 82.0], 82.0⟩ := by
    rw [step_measure_ok (constBus 0x52 0x00) A _ [] 82 _ rfl (readTemp_constBus_82 A temp0 log0),
      osHandler_eq]
    norm_num
  have h2 : thermalMgrStep (constBus 0x52 0x00) A
      ⟨[⟨THERMAL_MGR_EVENT_OS_INTERRUPT⟩],
         log0 ++ [BusOp.send A [0x00], BusOp.recv A 2],
         [Callback.addTemperatureTelemetry 82.0], 82.0⟩
      = ⟨[],
         log0 ++ [BusOp.send A [0x00], BusOp.recv A 2, BusOp.send A [0x00], BusOp.recv A 2],
         [Callback.addTemperatureTelemetry 82.0, Callback.overTemperatureDetected], 82.0⟩ := by
    rw [step_interrupt_ok (constBus 0x52 0x00) A _ [] 82 _ rfl (readTemp_constBus_82 A _ _)]
    norm_num
  have h3 : thermalMgrStep (constBus 0x46 0x00) A
      (injectEvent ⟨THERMAL_MGR_EVENT_MEASURE_TEMP_CMD⟩
        ⟨[],
         log0 ++ [BusOp.send A [0x00], BusOp.recv A 2, BusOp.send A [0x00], BusOp.recv A 2],
         [Callback.addTemperatureTelemetry 82.0, Callback.overTemperatureDetected], 82.0⟩)
      = ⟨[],
         log0 ++ [BusOp.send A [0x00], BusOp.recv A 2, BusOp.send A [0x00], BusOp.recv A 2,
           BusOp.send A [0x00], BusOp.recv A 2],
         [Callback.addTemperatureTelemetry 82.0, Callback.overTemperatureDetected]
           ++ [Callback.addTemperatureTelemetry 70.0], 70.0⟩ := by
    rw [step_measure_ok (constBus 0x46 0x00) A _ [] 70 _ rfl (readTemp_constBus_70 A _ _)]
    norm_num [injectEvent]
  refine ⟨?_, ?_, ?_⟩
  · rw [thermalMgr_succ, h1]
    rfl
  · rw [thermalMgr_succ, thermalMgr_succ, h1, h2]
    exact thermalMgr_empty _ A n _ rfl
  · rw [thermalMgr_succ, h3]
    exact thermalMgr_empty _ A n _ rfl

/-! ## Bits [7:5] of the configuration byte -/

/-- An or is below 32 exactly when both operands are. -/
theorem or_lt_32_iff (a b : Nat) : a ||| b < 32 ↔ a < 32 ∧ b < 32 := by
  have h32 : (32 : Nat) = 2 ^ 5 := rfl
  constructor
  · intro h
    have hbit : ∀ i, i ≥ 5 → (a ||| b).testBit i = false := by
      intro i hi
      apply Nat.testBit_lt_two_pow
      calc a ||| b < 2 ^ 5 := by rw [← h32]; exact h
        _ ≤ 2 ^ i := Nat.pow_le_pow_right (by decide) hi
    constructor
    · rw [h32]
      apply Nat.lt_pow_two_of_testBit
      intro i hi
      have := hbit i hi
      rw [Nat.testBit_or] at this
      cases ha : a.testBit i <;> simp_all
    · rw [h32]
      apply Nat.lt_pow_two_of_testBit
      intro i hi
      have := hbit i hi
      rw [Nat.testBit_or] at this
      cases hb : b.testBit i <;> simp_all
  · rintro ⟨ha, hb⟩
    rw [h32] at ha hb ⊢
    exact Nat.or_lt_two_pow ha hb

/-- Reduction modulo 256 goes through an or. -/
theorem or_mod_256_both (a b : Nat) : (a ||| b) % 256 = a % 256 ||| b % 256 := by
  apply Nat.eq_of_testBit_eq
  intro i
  have h256 : (256 : Nat) = 2 ^ 8 := rfl
  simp only [h256, Nat.testBit_mod_two_pow, Nat.testBit_or]
  cases decide (i < 8) <;> simp

/-- The data byte is below 32 exactly when no argument reaches into bits 5 to 7. -/
theorem confDataByte_lt_32_iff (code pol om dm : Nat) (hc : code ≤ 3) :
    confDataByte code pol om dm < 32 ↔ pol % 64 < 8 ∧ om % 128 < 16 ∧ dm % 256 < 32 := by
  rw [confDataByte_eq, or_mod_256_both, or_mod_256_both, or_mod_256_both, or_lt_32_iff,
    or_lt_32_iff, or_lt_32_iff]
  simp only [Nat.shiftLeft_eq]
  omega

/-- C14 as stated fails: with fault-queue size 1 and polarity 255 (an 8-bit value)
the data byte written is 0xFC, whose bits [7:5] are set. -/
theorem C14_bits_7_5_counterexample :
    ¬ ∀ (bus : I2CBus) (A devAddr fq code pol om dm : Nat) (log : List BusOp),
        (fq, code) ∈ [(1, 0), (2, 1), (4, 2), (6, 3)] → pol < 256 → om < 256 → dm < 256 →
        ∃ byte : Nat,
          (writeConfigLM75BD bus A devAddr fq pol om dm log).2
            = log ++ [BusOp.send A [0x01, byte]]
          ∧ byte < 32 := by
  intro h
  obtain ⟨byte, hlog, hlt⟩ := h (constBus 0 0) 0x4F 0x4F 1 0 255 0 0 [] (by decide) (by decide)
    (by decide) (by decide)
  rw [writeConfig_legal (constBus 0 0) 0x4F 0x4F 1 0 255 0 0 [] (by decide)] at hlog
  have hb : confDataByte 0 255 0 0 = 252 := by decide
  rw [hb] at hlog
  simp only [List.nil_append, List.cons.injEq, BusOp.send.injEq, and_true, true_and] at hlog
  omega

/-- C14, amended: for every call of `writeConfigLM75BD` that reaches the bus write
the arguments are or-ed in unmasked, so bits [7:5] of the data byte are zero
exactly when polarity has no bit in [5:3], the interrupt-output mode no bit in
[6:4] and the device mode no bit in [7:5]; in particular they are zero
whenever the three arguments are each 0 or 1. -/
theorem C14_bits_7_5_amended (bus : I2CBus) (A devAddr fq code pol om dm : Nat)
    (log : List BusOp) (hfq : (fq, code) ∈ [(1, 0), (2, 1), (4, 2), (6, 3)]) :
    ∃ byte : Nat,
      (writeConfigLM75BD bus A devAddr fq pol om dm log).2 = log ++ [BusOp.send A [0x01, byte]]
      ∧ (byte < 32 ↔ pol % 64 < 8 ∧ om % 128 < 16 ∧ dm % 256 < 32)
      ∧ (pol ≤ 1 → om ≤ 1 → dm ≤ 1 → byte < 32) := by
  have hc : code ≤ 3 := by
    simp only [List.mem_cons, Prod.mk.injEq, List.mem_singleton, List.not_mem_nil,
      or_false] at hfq
    omega
  refine ⟨confDataByte code pol om dm, ?_, confDataByte_lt_32_iff code pol om dm hc, ?_⟩
  · rw [writeConfig_legal bus A devAddr fq code pol om dm log hfq]
  · intro hp ho hd
    rw [confDataByte_lt_32_iff code pol om dm hc]
    omega

/-- C14 amended at fault-queue size 6 with the three mode arguments at 1: the
byte 0x1F. -/
theorem C14_bits_7_5_amended_witness :
    ∃ byte : Nat,
      (writeConfigLM75BD (constBus 0 0) 0x4F 0x4F 6 1 1 1 []).2
        = [] ++ [BusOp.send 0x4F [0x01, byte]]
      ∧ (byte < 32 ↔ 1 % 64 < 8 ∧ 1 % 128 < 16 ∧ 1 % 256 < 32)
      ∧ (1 ≤ 1 → 1 ≤ 1 → 1 ≤ 1 → byte < 32) :=
  C14_bits_7_5_amended (constBus 0 0) 0x4F 0x4F 6 3 1 1 1 [] (by decide)

/-! ## The mailbox -/

/-- A send of a present event: appended at the tail with success when fewer than
10 events are pending, refused with `ERR_CODE_UNKNOWN` otherwise. -/
theorem sendEvent_some (event : thermal_mgr_event_t) (queue : List thermal_mgr_event_t) :
    thermalMgrSendEvent (some event) queue
      = if queue.length < 10 then (ERR_CODE_SUCCESS, queue ++ [event])
        else (ERR_CODE_UNKNOWN, queue) := by
  unfold thermalMgrSendEvent xQueueSend THERMAL_MGR_QUEUE_LENGTH
  by_cases h : queue.length < 10 <;> simp [h]

/-- One mailbox operation keeps the capacity bound and the first-in first-out
bookkeeping: what was accepted is what was received followed by what is
pending. -/
theorem mailboxStep_inv (m : MailboxRun) (op : MailboxOp) (hlen : m.queue.length ≤ 10)
    (hfifo : m.received ++ m.queue = m.accepted) :
    (mailboxStep m op).queue.length ≤ 10
    ∧ (mailboxStep m op).received ++ (mailboxStep m op).queue = (mailboxStep m op).accepted := by
  cases op with
  | send event =>
    cases event with
    | none => exact ⟨by simpa [mailboxStep, thermalMgrSendEvent] using hlen,
        by simpa [mailboxStep, thermalMgrSendEvent] using hfifo⟩
    | some e =>
      by_cases h : m.queue.length < 10
      · simp only [mailboxStep, sendEvent_some, h, if_true]
        refine ⟨?_, ?_⟩
        · simp only [List.length_append, List.length_singleton]
          omega
        · rw [← List.append_assoc, hfifo]
      · simp only [mailboxStep, sendEvent_some, h, if_false]
        exact ⟨by simpa using hlen, by simpa using hfifo⟩
  | receive =>
    cases hq : m.queue with
    | nil =>
      rw [hq] at hfifo
      simp only [mailboxStep, hq, xQueueReceive]
      exact ⟨by simp, hfifo⟩
    | cons e rest =>
      rw [hq] at hlen hfifo
      simp only [mailboxStep, hq, xQueueReceive]
      refine ⟨?_, ?_⟩
      · simp only [List.length_cons] at hlen
        omega
      · rw [← hfifo]
        simp

/-- Any sequence of mailbox operations keeps the capacity bound and the first-in
first-out bookkeeping. -/
theorem mailboxRun_inv (ops : List MailboxOp) (m : MailboxRun) (hlen : m.queue.length ≤ 10)
    (hfifo : m.received ++ m.queue = m.accepted) :
    (mailboxRun ops m).queue.length ≤ 10
    ∧ (mailboxRun ops m).received ++ (mailboxRun ops m).queue = (mailboxRun ops m).accepted := by
  induction ops generalizing m with
  | nil => exact ⟨hlen, hfifo⟩
  | cons op ops ih =>
    have hstep := mailboxStep_inv m op hlen hfifo
    exact ih (mailboxStep m op) hstep.1 hstep.2

/-- C15: mailbox send contract, the mailbox being a first-in first-out list of
capacity 10 with no consumer running during the call.  `thermalMgrSendEvent`
returns invalid-argument for an absent event and leaves the mailbox unchanged;
for a present event it returns success and appends the event at the tail when
fewer than 10 events are pending, and returns a failure code and leaves the
mailbox unchanged when 10 events are pending.  Consequently, from an empty
mailbox and through any sequence of sends and receives, the mailbox never
holds more than 10 events and the events received are, in order, the first of
the events whose sends succeeded. -/
theorem C15_mailbox_send_contract (event : thermal_mgr_event_t)
    (queue : List thermal_mgr_event_t) (ops : List MailboxOp) :
    thermalMgrSendEvent none queue = (ERR_CODE_INVALID_ARG, queue)
    ∧ (queue.length < 10 →
        thermalMgrSendEvent (some event) queue = (ERR_CODE_SUCCESS, queue ++ [event]))
    ∧ (queue.length = 10 →
        thermalMgrSendEvent (some event) queue = (ERR_CODE_UNKNOWN, queue))
    ∧ (mailboxRun ops ⟨[], [], []⟩).queue.length ≤ 10
    ∧ (mailboxRun ops ⟨[], [], []⟩).received ++ (mailboxRun ops ⟨[], [], []⟩).queue
        = (mailboxRun ops ⟨[], [], []⟩).accepted
    ∧ (mailboxRun ops ⟨[], [], []⟩).received <+: (mailboxRun ops ⟨[], [], []⟩).accepted := by
  have hinv := mailboxRun_inv ops ⟨[], [], []⟩ (by simp) rfl
  refine ⟨rfl, ?_, ?_, hinv.1, hinv.2, ⟨_, hinv.2⟩⟩
  · intro h
    rw [sendEvent_some, if_pos h]
  · intro h
    rw [sendEvent_some, if_neg (by omega)]

/-- C15 on an empty mailbox and on a mailbox holding ten measure commands. -/
theorem C15_mailbox_send_contract_witness :
    thermalMgrSendEvent (some ⟨THERMAL_MGR_EVENT_OS_INTERRUPT⟩) []
        = (ERR_CODE_SUCCESS, [] ++ [⟨THERMAL_MGR_EVENT_OS_INTERRUPT⟩])
    ∧ thermalMgrSendEvent (some ⟨THERMAL_MGR_EVENT_OS_INTERRUPT⟩)
          (List.replicate 10 ⟨THERMAL_MGR_EVENT_MEASURE_TEMP_CMD⟩)
        = (ERR_CODE_UNKNOWN, List.replicate 10 ⟨THERMAL_MGR_EVENT_MEASURE_TEMP_CMD⟩) :=
  ⟨(C15_mailbox_send_contract ⟨THERMAL_MGR_EVENT_OS_INTERRUPT⟩ [] []).2.1 (by decide),
   (C15_mailbox_send_contract ⟨THERMAL_MGR_EVENT_OS_INTERRUPT⟩
      (List.replicate 10 ⟨THERMAL_MGR_EVENT_MEASURE_TEMP_CMD⟩) []).2.2.1 (by decide)⟩

/-- C16: interrupt bridge.  `osHandlerLM75BD` performs no bus transaction and
invokes no callback: its whole effect is on the mailbox.  When the mailbox has
free capacity it appends exactly one event, of type overtemperature interrupt,
at the tail; when the mailbox is full it leaves the mailbox unchanged, the
failure code of the send being dropped.  In the pass of the monitor that calls
it, the bus transactions are those of the read and the callbacks the one
telemetry record. -/
theorem C16_interrupt_bridge (queue : List thermal_mgr_event_t) :
    (queue.length < 10 → osHandlerLM75BD queue = queue ++ [⟨THERMAL_MGR_EVENT_OS_INTERRUPT⟩])
    ∧ (queue.length = 10 →
        osHandlerLM75BD queue = queue
        ∧ thermalMgrSendEvent (some ⟨THERMAL_MGR_EVENT_OS_INTERRUPT⟩) queue
            = (ERR_CODE_UNKNOWN, queue))
    ∧ ∀ (bus : I2CBus) (A : Nat) (s : MgrState) (t : ℚ) (log1 : List BusOp),
        s.queue = ⟨THERMAL_MGR_EVENT_MEASURE_TEMP_CMD⟩ :: queue →
        readTempLM75BD bus A (some s.tempC) s.log = (ERR_CODE_SUCCESS, some t, log1) →
        80.0 ≤ t →
        thermalMgrStep bus A s
          = { queue := osHandlerLM75BD queue, log := log1,
              calls := s.calls ++ [Callback.addTemperatureTelemetry t], tempC := t } := by
  refine ⟨?_, ?_, ?_⟩
  · intro h
    rw [osHandler_eq, if_pos h]
  · intro h
    refine ⟨?_, ?_⟩
    · rw [osHandler_eq, if_neg (by omega)]
    · rw [sendEvent_some, if_neg (by omega)]
  · intro bus A s t log1 hq hread ht
    rw [step_measure_ok bus A s queue t log1 hq hread, if_pos ht]

/-- C16 on a mailbox holding one measure command and on a mailbox holding ten. -/
theorem C16_interrupt_bridge_witness :
    osHandlerLM75BD [⟨THERMAL_MGR_EVENT_MEASURE_TEMP_CMD⟩]
        = [⟨THERMAL_MGR_EVENT_MEASURE_TEMP_CMD⟩] ++ [⟨THERMAL_MGR_EVENT_OS_INTERRUPT⟩]
    ∧ osHandlerLM75BD (List.replicate 10 ⟨THERMAL_MGR_EVENT_MEASURE_TEMP_CMD⟩)
        = List.replicate 10 ⟨THERMAL_MGR_EVENT_MEASURE_TEMP_CMD⟩ :=
  ⟨(C16_interrupt_bridge [⟨THERMAL_MGR_EVENT_MEASURE_TEMP_CMD⟩]).1 (by decide),
   ((C16_interrupt_bridge (List.replicate 10 ⟨THERMAL_MGR_EVENT_MEASURE_TEMP_CMD⟩)).2.1
      (by decide)).1⟩

/-! ## The low-order bits of the temperature register -/

/-- Masking a byte with 0xE0 keeps its multiple of 32. -/
theorem and_E0 (l : Nat) (hl : l < 256) : l &&& 0xE0 = l / 32 * 32 := by
  interval_cases l <;> rfl

/-- C17: the five low-order bits of the temperature register are don't-care.  For
every MSB and every two LSB values that agree in their top three bits,
`readTempLM75BD` stores the same temperature; and every decoded temperature is
an integer multiple of 0.125 lying in the closed range from -128.0 to
127.875. -/
theorem C17_low_bits_dont_care (bus1 bus2 : I2CBus) (devAddr1 devAddr2 : Nat) (old1 old2 : ℚ)
    (log1 log2 : List BusOp) (msb lsb1 lsb2 : Nat)
    (hm : msb < 256) (hl1 : lsb1 < 256) (hl2 : lsb2 < 256)
    (hs1 : bus1.i2cSendTo log1 devAddr1 [0x00] = ERR_CODE_SUCCESS)
    (hr1 : bus1.i2cReceiveFrom (log1 ++ [BusOp.send devAddr1 [0x00]]) devAddr1 2
      = (ERR_CODE_SUCCESS, [msb, lsb1]))
    (hs2 : bus2.i2cSendTo log2 devAddr2 [0x00] = ERR_CODE_SUCCESS)
    (hr2 : bus2.i2cReceiveFrom (log2 ++ [BusOp.send devAddr2 [0x00]]) devAddr2 2
      = (ERR_CODE_SUCCESS, [msb, lsb2]))
    (hagree : lsb1 &&& 0xE0 = lsb2 &&& 0xE0) :
    (readTempLM75BD bus1 devAddr1 (some old1) log1).2.1
        = (readTempLM75BD bus2 devAddr2 (some old2) log2).2.1
    ∧ ∃ k : Int, -1024 ≤ k ∧ k ≤ 1023
        ∧ (readTempLM75BD bus1 devAddr1 (some old1) log1).2.1 = some ((k : ℚ) * 0.125)
        ∧ (-128.0 : ℚ) ≤ (k : ℚ) * 0.125 ∧ (k : ℚ) * 0.125 ≤ 127.875 := by
  rw [readTemp_ok_arith bus1 devAddr1 msb lsb1 old1 log1 hm hl1 hs1 hr1,
    readTemp_ok_arith bus2 devAddr2 msb lsb2 old2 log2 hm hl2 hs2 hr2]
  rw [and_E0 lsb1 hl1, and_E0 lsb2 hl2] at hagree
  have hval : (if msb * 256 + lsb1 < 32768 then ((msb * 256 + lsb1 : Nat) : Int)
        else ((msb * 256 + lsb1 : Nat) : Int) - 65536) / 32
      = (if msb * 256 + lsb2 < 32768 then ((msb * 256 + lsb2 : Nat) : Int)
        else ((msb * 256 + lsb2 : Nat) : Int) - 65536) / 32 := by
    split <;> split <;> omega
  refine ⟨by simp only [hval], _, ?_, ?_, rfl, ?_, ?_⟩
  · split <;> omega
  · split <;> omega
  · have hk : (-1024 : Int) ≤ (if msb * 256 + lsb1 < 32768 then ((msb * 256 + lsb1 : Nat) : Int)
        else ((msb * 256 + lsb1 : Nat) : Int) - 65536) / 32 := by
      split <;> omega
    have hq : ((-1024 : Int) : ℚ) ≤ (((if msb * 256 + lsb1 < 32768
        then ((msb * 256 + lsb1 : Nat) : Int)
        else ((msb * 256 + lsb1 : Nat) : Int) - 65536) / 32 : Int) : ℚ) := by
      exact_mod_cast hk
    norm_num at hq ⊢
    linarith
  · have hk : (if msb * 256 + lsb1 < 32768 then ((msb * 256 + lsb1 : Nat) : Int)
        else ((msb * 256 + lsb1 : Nat) : Int) - 65536) / 32 ≤ (1023 : Int) := by
      split <;> omega
    have hq : (((if msb * 256 + lsb1 < 32768
        then ((msb * 256 + lsb1 : Nat) : Int)
        else ((msb * 256 + lsb1 : Nat) : Int) - 65536) / 32 : Int) : ℚ) ≤ ((1023 : Int) : ℚ) := by
      exact_mod_cast hk
    norm_num at hq ⊢
    linarith

/-- C17 at MSB 0xE7 with the LSB values 0x1F and 0x00, which differ in the five
low-order bits only. -/
theorem C17_low_bits_dont_care_witness :
    (readTempLM75BD (constBus 0xE7 0x1F) 0x4F (some 0) []).2.1
      = (readTempLM75BD (constBus 0xE7 0x00) 0x4F (some 0) []).2.1 :=
  (C17_low_bits_dont_care (constBus 0xE7 0x1F) (constBus 0xE7 0x00) 0x4F 0x4F 0 0 [] []
    0xE7 0x1F 0x00 (by decide) (by decide) (by decide) rfl rfl rfl rfl (by decide)).1

/-! ## Consequences of the two thresholds and of the queue discipline -/

/-- The calls of a measure pass whose read succeeds with sample `t`. -/
theorem stepCalls_measure_ok (bus : I2CBus) (A : Nat) (s : MgrState)
    (rest : List thermal_mgr_event_t) (t : ℚ) (log1 : List BusOp)
    (hq : s.queue = ⟨THERMAL_MGR_EVENT_MEASURE_TEMP_CMD⟩ :: rest)
    (hread : readTempLM75BD bus A (some s.tempC) s.log = (ERR_CODE_SUCCESS, some t, log1)) :
    thermalMgrStepCalls bus A s
      = [Call.readTempLM75BD, Call.addTemperatureTelemetry t]
          ++ (if 80.0 ≤ t then [Call.osHandlerLM75BD] else []) := by
  simp only [thermalMgrStepCalls, hq, xQueueReceive, hread, LM75BD_DEFAULT_OT_THRESH]
  simp

/-- The calls of an interrupt pass whose read succeeds with sample `t`. -/
theorem stepCalls_interrupt_ok (bus : I2CBus) (A : Nat) (s : MgrState)
    (rest : List thermal_mgr_event_t) (t : ℚ) (log1 : List BusOp)
    (hq : s.queue = ⟨THERMAL_MGR_EVENT_OS_INTERRUPT⟩ :: rest)
    (hread : readTempLM75BD bus A (some s.tempC) s.log = (ERR_CODE_SUCCESS, some t, log1)) :
    thermalMgrStepCalls bus A s
      = [Call.readTempLM75BD,
          if 75.0 ≤ t then Call.overTemperatureDetected else Call.safeOperatingConditions] := by
  simp only [thermalMgrStepCalls, hq, xQueueReceive, hread, LM75BD_DEFAULT_HYST_THRESH]
  simp

/-- C18: threshold ordering consequence (set-point 80.0 above hysteresis 75.0).
Whenever a measure pass synthesizes an overtemperature interrupt, its sample
`t` is at least 80.0, and every interrupt pass that reads the same sample `t`
invokes `overTemperatureDetected` and never `safeOperatingConditions`; in
particular so does the pass that consumes the synthesized event. -/
theorem C18_threshold_ordering (bus : I2CBus) (A : Nat) (s1 s2 : MgrState)
    (rest1 rest2 : List thermal_mgr_event_t) (t : ℚ) (log1 log2 : List BusOp)
    (hq1 : s1.queue = ⟨THERMAL_MGR_EVENT_MEASURE_TEMP_CMD⟩ :: rest1)
    (hread1 : readTempLM75BD bus A (some s1.tempC) s1.log = (ERR_CODE_SUCCESS, some t, log1))
    (hsyn : Call.osHandlerLM75BD ∈ thermalMgrStepCalls bus A s1)
    (hq2 : s2.queue = ⟨THERMAL_MGR_EVENT_OS_INTERRUPT⟩ :: rest2)
    (hread2 : readTempLM75BD bus A (some s2.tempC) s2.log = (ERR_CODE_SUCCESS, some t, log2)) :
    80.0 ≤ t
    ∧ thermalMgrStep bus A s2
        = { queue := rest2, log := log2,
            calls := s2.calls ++ [Callback.overTemperatureDetected], tempC := t }
    ∧ thermalMgrStepCalls bus A s2 = [Call.readTempLM75BD, Call.overTemperatureDetected]
    ∧ (s2 = thermalMgrStep bus A s1 →
        thermalMgr bus A 2 s1
          = { queue := rest2, log := log2,
              calls := s1.calls
                ++ [Callback.addTemperatureTelemetry t, Callback.overTemperatureDetected],
              tempC := t }) := by
  have ht : (80.0 : ℚ) ≤ t := by
    rw [stepCalls_measure_ok bus A s1 rest1 t log1 hq1 hread1] at hsyn
    by_contra hnot
    simp [hnot] at hsyn
  have ht75 : (75.0 : ℚ) ≤ t := by
    norm_num at ht ⊢
    linarith
  have hstep2 : thermalMgrStep bus A s2
      = { queue := rest2, log := log2,
          calls := s2.calls ++ [Callback.overTemperatureDetected], tempC := t } := by
    rw [step_interrupt_ok bus A s2 rest2 t log2 hq2 hread2, if_pos ht75]
  refine ⟨ht, hstep2, ?_, ?_⟩
  · rw [stepCalls_interrupt_ok bus A s2 rest2 t log2 hq2 hread2, if_pos ht75]
  · intro hs2
    rw [thermalMgr_succ, thermalMgr_succ, ← hs2, hstep2]
    have hcalls : s2.calls = s1.calls ++ [Callback.addTemperatureTelemetry t] := by
      rw [hs2, step_measure_ok bus A s1 rest1 t log1 hq1 hread1]
    rw [hcalls]
    simp [thermalMgr]

/-- C18 on a bus that delivers 0x52 0x00 (82.0 degrees): the measure pass
synthesizes the interrupt, the pass that consumes it reports overtemperature. -/
theorem C18_threshold_ordering_witness :
    thermalMgr (constBus 0x52 0x00) 0x4F 2 ⟨[⟨THERMAL_MGR_EVENT_MEASURE_TEMP_CMD⟩], [], [], 0⟩
      = { queue := [],
          log := [BusOp.send 0x4F [0x00], BusOp.recv 0x4F 2] ++
            [BusOp.send 0x4F [0x00], BusOp.recv 0x4F 2],
          calls := [] ++ [Callback.addTemperatureTelemetry 82, Callback.overTemperatureDetected],
          tempC := 82 } := by
  have hs1 : thermalMgrStep (constBus 0x52 0x00) 0x4F
      ⟨[⟨THERMAL_MGR_EVENT_MEASURE_TEMP_CMD⟩], [], [], 0⟩
      = ⟨[⟨THERMAL_MGR_EVENT_OS_INTERRUPT⟩], [BusOp.send 0x4F [0x00], BusOp.recv 0x4F 2],
         [Callback.addTemperatureTelemetry 82], 82⟩ := by
    rw [step_measure_ok (constBus 0x52 0x00) 0x4F _ [] 82 _ rfl (readTemp_constBus_82 0x4F 0 []),
      osHandler_eq]
    norm_num
  have hsyn : Call.osHandlerLM75BD ∈ thermalMgrStepCalls (constBus 0x52 0x00) 0x4F
      ⟨[⟨THERMAL_MGR_EVENT_MEASURE_TEMP_CMD⟩], [], [], 0⟩ := by
    rw [stepCalls_measure_ok (constBus 0x52 0x00) 0x4F _ [] 82 _ rfl
      (readTemp_constBus_82 0x4F 0 [])]
    norm_num
  exact (C18_threshold_ordering (constBus 0x52 0x00) 0x4F
    ⟨[⟨THERMAL_MGR_EVENT_MEASURE_TEMP_CMD⟩], [], [], 0⟩
    ⟨[⟨THERMAL_MGR_EVENT_OS_INTERRUPT⟩], [BusOp.send 0x4F [0x00], BusOp.recv 0x4F 2],
      [Callback.addTemperatureTelemetry 82], 82⟩
    [] [] 82 _ _ rfl (readTemp_constBus_82 0x4F 0 []) hsyn rfl
    (readTemp_constBus_82 0x4F 82 _)).2.2.2 hs1.symm

/-- A pass that receives an event removes it from the head of the mailbox and
adds at most at the tail. -/
theorem step_queue_tail (bus : I2CBus) (A : Nat) (s : MgrState) (event : thermal_mgr_event_t)
    (rest : List thermal_mgr_event_t) (hq : s.queue = event :: rest) :
    ∃ extra : List thermal_mgr_event_t, (thermalMgrStep bus A s).queue = rest ++ extra := by
  by_cases hfail : (readTempLM75BD bus A (some s.tempC) s.log).1 = ERR_CODE_SUCCESS
  · obtain ⟨ty⟩ := event
    cases ty with
    | THERMAL_MGR_EVENT_MEASURE_TEMP_CMD =>
      by_cases ht : (readTempLM75BD bus A (some s.tempC) s.log).2.1.getD s.tempC
          ≥ LM75BD_DEFAULT_OT_THRESH
      · by_cases hlen : rest.length < 10
        · refine ⟨[⟨THERMAL_MGR_EVENT_OS_INTERRUPT⟩], ?_⟩
          simp [thermalMgrStep, hq, xQueueReceive, hfail, ht, osHandler_eq, hlen]
        · refine ⟨[], ?_⟩
          simp [thermalMgrStep, hq, xQueueReceive, hfail, ht, osHandler_eq, hlen]
      · refine ⟨[], ?_⟩
        simp [thermalMgrStep, hq, xQueueReceive, hfail, ht]
    | THERMAL_MGR_EVENT_OS_INTERRUPT =>
      refine ⟨[], ?_⟩
      simp [thermalMgrStep, hq, xQueueReceive, hfail]
  · refine ⟨[], ?_⟩
    rw [step_fail bus A s event rest hq hfail]
    simp

/-- The events received by `n + 1` passes: the one received by the first pass, if
any, then those of the `n` passes that follow. -/
theorem thermalMgrConsumed_succ (bus : I2CBus) (A : Nat) (n : Nat) (s : MgrState) :
    thermalMgrConsumed bus A (n + 1) s
      = (match (xQueueReceive s.queue).1 with
          | some event => [event]
          | none => [])
        ++ thermalMgrConsumed bus A n (thermalMgrStep bus A s) := rfl

/-- The monitor receives the pending events in their order in the mailbox,
whatever is added behind them meanwhile. -/
theorem consumed_prefix (bus : I2CBus) (A : Nat) (front : List thermal_mgr_event_t) :
    ∀ (s : MgrState) (back : List thermal_mgr_event_t), s.queue = front ++ back →
      thermalMgrConsumed bus A front.length s = front := by
  induction front with
  | nil => intro s back _; rfl
  | cons event front ih =>
    intro s back hq
    obtain ⟨extra, hstep⟩ := step_queue_tail bus A s event (front ++ back) hq
    rw [List.length_cons, thermalMgrConsumed_succ, hq]
    rw [ih (thermalMgrStep bus A s) (back ++ extra) (by rw [hstep, List.append_assoc])]
    rfl

/-- C19: in the sequential model (mailbox a first-in first-out list of capacity 10,
no producer running during a pass of the monitor) the interrupt synthesized by
the monitor is never dropped and never jumps the queue.  Every pass that
consumes a measure command with a successful sample `t ≥ 80.0` ends with the
mailbox equal to the previously pending events followed by exactly one
overtemperature interrupt at the tail, the receive having freed a slot; and
the passes that follow receive every event that was already pending, in
order, before the synthesized one. -/
theorem C19_synthesized_interrupt_order (bus : I2CBus) (A : Nat) (s : MgrState)
    (rest : List thermal_mgr_event_t) (t : ℚ) (log1 : List BusOp)
    (hq : s.queue = ⟨THERMAL_MGR_EVENT_MEASURE_TEMP_CMD⟩ :: rest)
    (hcap : s.queue.length ≤ 10)
    (hread : readTempLM75BD bus A (some s.tempC) s.log = (ERR_CODE_SUCCESS, some t, log1))
    (ht : 80.0 ≤ t) :
    (thermalMgrStep bus A s).queue = rest ++ [⟨THERMAL_MGR_EVENT_OS_INTERRUPT⟩]
    ∧ thermalMgrConsumed bus A (rest.length + 1) (thermalMgrStep bus A s)
        = rest ++ [⟨THERMAL_MGR_EVENT_OS_INTERRUPT⟩] := by
  have hlen : rest.length < 10 := by
    rw [hq, List.length_cons] at hcap
    omega
  have hqueue : (thermalMgrStep bus A s).queue = rest ++ [⟨THERMAL_MGR_EVENT_OS_INTERRUPT⟩] := by
    rw [step_measure_ok bus A s rest t log1 hq hread, if_pos ht, osHandler_eq, if_pos hlen]
  refine ⟨hqueue, ?_⟩
  have h := consumed_prefix bus A (rest ++ [⟨THERMAL_MGR_EVENT_OS_INTERRUPT⟩])
    (thermalMgrStep bus A s) [] (by rw [hqueue, List.append_nil])
  rw [List.length_append, List.length_singleton] at h
  exact h

/-- C19 on a full mailbox: a measure command followed by nine pending measure
commands, the bus delivering 0x52 0x00 (82.0 degrees).  The synthesized
interrupt lands behind the nine. -/
theorem C19_synthesized_interrupt_order_witness :
    (thermalMgrStep (constBus 0x52 0x00) 0x4F
        ⟨⟨THERMAL_MGR_EVENT_MEASURE_TEMP_CMD⟩
          :: List.replicate 9 ⟨THERMAL_MGR_EVENT_MEASURE_TEMP_CMD⟩, [], [], 0⟩).queue
      = List.replicate 9 ⟨THERMAL_MGR_EVENT_MEASURE_TEMP_CMD⟩
          ++ [⟨THERMAL_MGR_EVENT_OS_INTERRUPT⟩] :=
  (C19_synthesized_interrupt_order (constBus 0x52 0x00) 0x4F
    ⟨⟨THERMAL_MGR_EVENT_MEASURE_TEMP_CMD⟩
      :: List.replicate 9 ⟨THERMAL_MGR_EVENT_MEASURE_TEMP_CMD⟩, [], [], 0⟩
    (List.replicate 9 ⟨THERMAL_MGR_EVENT_MEASURE_TEMP_CMD⟩) 82
    ([] ++ [BusOp.send 0x4F [0x00], BusOp.recv 0x4F 2]) rfl (by decide)
    (readTemp_constBus_82 0x4F 0 []) (by norm_num)).1

end LM75BD
